import Mathlib

/-!
# Tail reader (package `tail`): follow-mode read loop, rotation detector, reopen

A shallow embedding of `tail.go`.

* Go values of type `error` are `Option Error` (`none` is `nil`); `io.EOF` is the
  constructor `Error.EOF`, every other error carries its message.
* `int`, `int64` and `time.Duration` are `Int`; arithmetic on them wraps with
  `wrapInt64` (64-bit platform, as `syscall.Stat_t` on linux/amd64). `uint64` is `Nat`
  reduced modulo `2^64`.
* The standard-library calls made by the package (`os.OpenFile`, `os.Stat`,
  `(*os.File).Name/Stat/Read/Seek/Close`, `time.Sleep`) are the fields of the record
  `OS`; the package code is parametrised by it. The state of the operating system is
  threaded explicitly, together with the list of library calls made so far.
* Methods with a pointer receiver return the updated receiver.
* The `for` loop of `Read` runs on fuel: `none` means the loop was still running when
  the fuel ran out.
* `SimWorld`/`simOS` is a small executable file system implementing `OS`.
-/

namespace Tail

/-! ## Go base types -/

/-- Go `error` values that are not `nil`: the sentinel `io.EOF`, or an error with a message. -/
inductive Error where
  | EOF
  | other (msg : String)
  deriving DecidableEq, Repr

/-- Method `Error()` of an error value. -/
def Error.message : Error → String
  | .EOF => "EOF"
  | .other msg => msg

/-- Call `fmt.Errorf(format, err)` where `format` is a text followed by one `%s`. -/
def Errorf (text : String) (err : Error) : Error :=
  .other (text ++ err.message)

/-- Call `errors.New(text)`. -/
def errorsNew (text : String) : Error :=
  .other text

/-- Two's complement wrap-around of a 64-bit signed integer. -/
def wrapInt64 (x : Int) : Int :=
  (x + 9223372036854775808) % 18446744073709551616 - 9223372036854775808

/-- Conversion `uint64(x)`. -/
def toUint64 (x : Nat) : Nat :=
  x % 18446744073709551616

/-- The values of type `int64`. -/
def isInt64 (x : Int) : Prop :=
  -9223372036854775808 ≤ x ∧ x < 9223372036854775808

instance (x : Int) : Decidable (isInt64 x) := by
  unfold isInt64; infer_instance

/-- Constant `time.Second`, in nanoseconds. -/
def Second : Int := 1000000000

/-- A byte slice `[]byte`. -/
abbrev Buf := List Nat

/-! ## Library interface -/

/-- Type `syscall.Stat_t`, the fields read by the package. -/
structure Stat_t where
  Ino : Nat
  Dev : Nat
  Size : Int
  deriving DecidableEq, Repr

/-- What `os.FileInfo.Sys()` returns: `nil`, a `*syscall.Stat_t`, or a value of another type. -/
inductive SysValue where
  | nil
  | stat (st : Stat_t)
  | foreign
  deriving DecidableEq, Repr

/-- Interface `os.FileInfo`, the part read by the package. -/
structure FileInfo where
  Sys : SysValue
  deriving DecidableEq, Repr

/-- The library calls the package makes. `σ` is the state of the operating system
(files, directory entries, open descriptors, whatever other processes will do), `H` is
`*os.File`. -/
structure OS (σ H : Type) where
  /-- Call `os.OpenFile(name, os.O_RDONLY, 0644)`. -/
  OpenFile : σ → String → σ × Except Error H
  /-- Call `os.Stat(name)`. -/
  Stat : σ → String → Except Error FileInfo
  /-- Method `(*os.File).Name`. -/
  Name : H → String
  /-- Method `(*os.File).Stat`. -/
  FStat : σ → H → Except Error FileInfo
  /-- Method `(*os.File).Read(p)`: new state, new content of `p`, `n`, `err`. -/
  Read : σ → H → Buf → σ × Buf × Int × Option Error
  /-- Method `(*os.File).Seek(0, os.SEEK_END)`. -/
  Seek : σ → H → σ × Except Error Int
  /-- Method `(*os.File).Close`, its error dropped. -/
  Close : σ → H → σ
  /-- Call `time.Sleep(d)`: the state after other processes ran for `d`. -/
  Sleep : σ → Int → σ

/-- A library call made by the package. -/
inductive Event (H : Type) where
  | OpenFile (name : String)
  | Stat (name : String)
  | FStat (h : H)
  | Read (h : H)
  | Seek (h : H)
  | Close (h : H)
  | Sleep (d : Int)
  deriving DecidableEq, Repr

/-- State of the operating system and the library calls made so far, oldest first. -/
structure World (σ H : Type) where
  os : σ
  trace : List (Event H)

/-! ## The package -/

/-- Follow mode for disabled. -/
def FollowDisable : Int := 0
/-- Follow mode for descriptor. -/
def FollowDescriptor : Int := 1
/-- Follow mode for name. -/
def FollowName : Int := 2

/-- Struct `fileInfo`. -/
structure fileInfo where
  Inode : Nat
  Dev : Nat
  Size : Int
  deriving DecidableEq, Repr

/-- Function `newFileInfo`. -/
def newFileInfo (fi : FileInfo) : Except Error fileInfo :=
  match fi.Sys with
  | .nil => .error (errorsNew "failed to get sys from FileInfo")
  | .foreign => .error (errorsNew "sys is not syscall.Stat_t")
  | .stat st => .ok { Inode := st.Ino, Dev := toUint64 st.Dev, Size := st.Size }

/-- Struct `File`; field `osFile` is the embedded `*os.File`. -/
structure File (H : Type) where
  osFile : H
  Follow : Int
  NamePattern : String
  SleepInterval : Int
  notChanged : Int
  lastPos : Int

/-- Method `(*File).IsInaccessible`. -/
def File.IsInaccessible {σ H : Type} (sys : OS σ H) (w : World σ H) (f : File H) :
    World σ H × File H × Bool × Option Error :=
  let w1 : World σ H := ⟨w.os, w.trace ++ [Event.Stat (sys.Name f.osFile)]⟩
  match sys.Stat w.os (sys.Name f.osFile) with
  | .error err => (w1, f, false, some (Errorf "failed to stat for name: " err))
  | .ok statA =>
    let w2 : World σ H := ⟨w.os, w1.trace ++ [Event.FStat f.osFile]⟩
    match sys.FStat w.os f.osFile with
    | .error err => (w2, f, false, some (Errorf "failed to stat for fd: " err))
    | .ok statB =>
      match newFileInfo statA with
      | .error err => (w2, f, false, some (Errorf "failed to get sys for name: " err))
      | .ok fiA =>
        match newFileInfo statB with
        | .error err => (w2, f, false, some (Errorf "failed to get sys for fd: " err))
        | .ok fiB =>
          if fiA.Dev ≠ fiB.Dev then (w2, f, true, none)
          else if fiA.Inode ≠ fiB.Inode then (w2, f, true, none)
          else if fiA.Size < f.lastPos then (w2, f, true, none)
          else (w2, f, false, none)

/-- Method `(*File).reopen`. -/
def File.reopen {σ H : Type} (sys : OS σ H) (w : World σ H) (f : File H) :
    World σ H × File H × Option Error :=
  let w1 : World σ H := ⟨w.os, w.trace ++ [Event.OpenFile (sys.Name f.osFile)]⟩
  match sys.OpenFile w.os (sys.Name f.osFile) with
  | (os1, .error err) => (⟨os1, w1.trace⟩, f, some err)
  | (os1, .ok newf) =>
    (⟨sys.Close os1 f.osFile, w1.trace ++ [Event.Close f.osFile]⟩,
      { f with osFile := newf, lastPos := 0 }, none)

/-- How one pass through the body of the `for` loop of `Read` ends. -/
inductive Step where
  | ret (n : Int) (err : Option Error)
  | again
  deriving DecidableEq, Repr

/-- Body of the `for` loop of `(*File).Read`. -/
def File.ReadBody {σ H : Type} (sys : OS σ H) (w : World σ H) (f : File H) (p : Buf) :
    World σ H × File H × Buf × Step :=
  match sys.Read w.os f.osFile p with
  | (os1, p1, n, err) =>
    let w1 : World σ H := ⟨os1, w.trace ++ [Event.Read f.osFile]⟩
    let f1 : File H := { f with lastPos := wrapInt64 (f.lastPos + n) }
    if err ≠ some Error.EOF then (w1, f1, p1, .ret n err)
    else if f1.Follow = FollowDisable then (w1, f1, p1, .ret n err)
    else
      let w2 : World σ H :=
        ⟨sys.Sleep w1.os f1.SleepInterval, w1.trace ++ [Event.Sleep f1.SleepInterval]⟩
      if f1.Follow = FollowDescriptor then (w2, f1, p1, .again)
      else
        let f2 : File H := { f1 with notChanged := wrapInt64 (f1.notChanged + 1) }
        if f2.notChanged > 4 then (w2, f2, p1, .again)
        else
          let f3 : File H := { f2 with notChanged := 0 }
          match File.IsInaccessible sys w2 f3 with
          | (w3, f4, b, err2) =>
            if err2 ≠ none then (w3, f4, p1, .ret 0 err2)
            else if b then
              match File.reopen sys w3 f4 with
              | (w4, f5, _) => (w4, f5, p1, .again)
            else (w3, f4, p1, .again)

/-- What a call of `Read` leaves behind and returns. -/
structure ReadOut (σ H : Type) where
  w : World σ H
  f : File H
  p : Buf
  n : Int
  err : Option Error

/-- Method `(*File).Read`; `fuel` bounds the number of passes through the loop. -/
def File.Read {σ H : Type} (sys : OS σ H) : Nat → World σ H → File H → Buf →
    Option (ReadOut σ H)
  | 0, _, _, _ => none
  | fuel + 1, w, f, p =>
    match File.ReadBody sys w f p with
    | (w1, f1, p1, .ret n err) => some ⟨w1, f1, p1, n, err⟩
    | (w1, f1, p1, .again) => File.Read sys fuel w1 f1 p1

/-- Function `Open`. -/
def Open {σ H : Type} (sys : OS σ H) (w : World σ H) (filename : String) :
    World σ H × Option (File H) × Option Error :=
  let w1 : World σ H := ⟨w.os, w.trace ++ [Event.OpenFile filename]⟩
  match sys.OpenFile w.os filename with
  | (os1, .error err) => (⟨os1, w1.trace⟩, none, some err)
  | (os1, .ok f) =>
    let w2 : World σ H := ⟨os1, w1.trace ++ [Event.Seek f]⟩
    match sys.Seek os1 f with
    | (os2, .error err) => (⟨os2, w2.trace⟩, none, some err)
    | (os2, .ok n) =>
      (⟨os2, w2.trace⟩,
        some { osFile := f, Follow := FollowDisable, NamePattern := "",
               SleepInterval := Second, notChanged := 0, lastPos := n },
        none)

/-- Function `OpenDescriptor`. The middle case, `Open` returning `(nil, nil)`, is there
for totality only: `Open` never returns it. -/
def OpenDescriptor {σ H : Type} (sys : OS σ H) (w : World σ H) (filename : String) :
    World σ H × Option (File H) × Option Error :=
  match Open sys w filename with
  | (w1, _, some err) => (w1, none, some err)
  | (w1, none, none) => (w1, none, none)
  | (w1, some f, none) => (w1, some { f with Follow := FollowDescriptor }, none)

/-- Function `OpenName`. The middle case, `Open` returning `(nil, nil)`, is there for
totality only: `Open` never returns it. -/
def OpenName {σ H : Type} (sys : OS σ H) (w : World σ H) (filename : String) :
    World σ H × Option (File H) × Option Error :=
  match Open sys w filename with
  | (w1, _, some err) => (w1, none, some err)
  | (w1, none, none) => (w1, none, none)
  | (w1, some f, none) =>
    (w1, some { f with Follow := FollowName, NamePattern := filename }, none)

/-! ## Sequences of reads and what the environment does -/

/-- The handle `h` answers end-of-stream to `k` successive reads, each followed by a
sleep of `d`, and answers the read after them with something else: that last answer. -/
def eofRun {σ H : Type} (sys : OS σ H) (h : H) (d : Int) :
    Nat → σ → Buf → Option (σ × Buf × Int × Option Error)
  | 0, os, p =>
    if (sys.Read os h p).2.2.2 ≠ some Error.EOF then some (sys.Read os h p) else none
  | k + 1, os, p =>
    if (sys.Read os h p).2.2.2 = some Error.EOF then
      eofRun sys h d k (sys.Sleep (sys.Read os h p).1 d) (sys.Read os h p).2.1
    else none

/-- Whether a library call is a `Close`. -/
def Event.isClose {H : Type} : Event H → Bool
  | .Close _ => true
  | _ => false

/-- Whether a library call is a `Sleep`. -/
def Event.isSleep {H : Type} : Event H → Bool
  | .Sleep _ => true
  | _ => false

/-- Whether a library call belongs to the rotation check (`os.Stat` or `(*os.File).Stat`). -/
def Event.isStat {H : Type} : Event H → Bool
  | .Stat _ => true
  | .FStat _ => true
  | _ => false

/-- Whether a library call is an `os.OpenFile`. -/
def Event.isOpenFile {H : Type} : Event H → Bool
  | .OpenFile _ => true
  | _ => false

/-- The library calls of a reader that polls the handle `h`: `k` times a read followed
by a sleep of `d`, then one more read. -/
def pollTrace {H : Type} (h : H) (d : Int) : Nat → List (Event H)
  | 0 => [Event.Read h]
  | k + 1 => Event.Read h :: Event.Sleep d :: pollTrace h d k

/-- The path the handle `h` was opened with still names the file `h` is open on, and
that file has not shrunk below `pos`: both stats succeed and carry a
`*syscall.Stat_t`, with the same device, the same inode, and a size not below `pos`. -/
def stillTracked {σ H : Type} (sys : OS σ H) (os : σ) (h : H) (pos : Int) : Bool :=
  match sys.Stat os (sys.Name h), sys.FStat os h with
  | .ok sa, .ok sb =>
    match sa.Sys, sb.Sys with
    | .stat a, .stat b =>
      decide (toUint64 a.Dev = toUint64 b.Dev ∧ a.Ino = b.Ino ∧ ¬ a.Size < pos)
    | _, _ => false
  | _, _ => false

/-- The handle `h` answers `(0, io.EOF)` to `k` successive reads, each followed by a sleep
of `d` after which the path still names the file of `h`, not shrunk below `pos`; and it
answers the read after them with something other than end-of-stream: that last answer. -/
def quietRun {σ H : Type} (sys : OS σ H) (h : H) (d : Int) (pos : Int) :
    Nat → σ → Buf → Option (σ × Buf × Int × Option Error)
  | 0, os, p =>
    if (sys.Read os h p).2.2.2 ≠ some Error.EOF then some (sys.Read os h p) else none
  | k + 1, os, p =>
    if (sys.Read os h p).2.2 = (0, some Error.EOF) ∧
        stillTracked sys (sys.Sleep (sys.Read os h p).1 d) h pos = true then
      quietRun sys h d pos k (sys.Sleep (sys.Read os h p).1 d) (sys.Read os h p).2.1
    else none

/-- The library calls of a reader in name mode that polls the handle `h`, opened as
`name`: `k` times a read, a sleep of `d` and the two stats of the rotation check, then
one more read. -/
def quietTrace {H : Type} (name : String) (h : H) (d : Int) : Nat → List (Event H)
  | 0 => [Event.Read h]
  | k + 1 =>
    Event.Read h :: Event.Sleep d :: Event.Stat name :: Event.FStat h :: quietTrace name h d k

/-- Bookkeeping of an observer of the reader: the offset the owned handle had when it
was opened or reopened, and the bytes `Read` returned to the caller since then. -/
structure Ledger where
  base : Int
  delivered : Int
  deriving DecidableEq, Repr

/-- Update of the observer's bookkeeping by one returned call of `Read`: `calls` are the
library calls the call made, `n` the count it returned. A `Close` among them is the mark
of a successful reopen, after which the owned handle starts at offset 0. -/
def Ledger.record {H : Type} (led : Ledger) (calls : List (Event H)) (n : Int) : Ledger :=
  if calls.any Event.isClose then ⟨0, n⟩ else ⟨led.base, led.delivered + n⟩

/-- A sequence of calls of `Read` on one reader, each with its fuel and its buffer;
returns what every call returned, the final state, and the observer's bookkeeping.
`none` when one of the calls was still running when its fuel ran out. -/
def readCalls {σ H : Type} (sys : OS σ H) :
    List (Nat × Buf) → World σ H → File H → Ledger →
      Option (List (Int × Option Error) × World σ H × File H × Ledger)
  | [], w, f, led => some ([], w, f, led)
  | (fuel, p) :: rest, w, f, led =>
    match File.Read sys fuel w f p with
    | none => none
    | some out =>
      match readCalls sys rest out.w out.f
          (led.record (out.w.trace.drop w.trace.length) out.n) with
      | none => none
      | some (rs, w2, f2, led2) => some ((out.n, out.err) :: rs, w2, f2, led2)

/-- The underlying read never hands over bytes together with end-of-stream, as
`(*os.File).Read` does ("at end of file, Read returns 0, io.EOF"). -/
def OS.eofIsEmpty {σ H : Type} (sys : OS σ H) : Prop :=
  ∀ (os : σ) (h : H) (p : Buf), (sys.Read os h p).2.2.2 = some Error.EOF →
    (sys.Read os h p).2.2.1 = 0

/-! ## A small file system -/

/-- A file on disk. `readable`: may be opened for reading; `seekable`: false for a pipe. -/
structure SimNode where
  Dev : Nat
  Ino : Nat
  data : List Nat
  readable : Bool
  seekable : Bool
  deriving DecidableEq, Repr

/-- An open file description: which file (index in `SimWorld.nodes`), offset, closed. -/
structure SimDesc where
  node : Nat
  off : Nat
  closed : Bool
  deriving DecidableEq, Repr

/-- A `*os.File`: descriptor number and the name it was opened with. -/
structure SimFile where
  fd : Nat
  name : String
  deriving DecidableEq, Repr

/-- What another process does to the file system. -/
inductive SimAction where
  | append (node : Nat) (bytes : List Nat)
  | truncate (node : Nat) (size : Nat)
  | unlink (path : String)
  | create (path : String) (nd : SimNode)
  deriving DecidableEq, Repr

/-- Files, directory entries, open descriptors, whether `Sys()` is a `*syscall.Stat_t`,
and what other processes do during each of the coming sleeps. -/
structure SimWorld where
  nodes : List SimNode
  dir : List (String × Nat)
  fds : List SimDesc
  posix : Bool
  script : List (List SimAction)
  deriving DecidableEq, Repr

/-- Effect of one action of another process. -/
def SimWorld.act (s : SimWorld) : SimAction → SimWorld
  | .append i bytes =>
    match s.nodes[i]? with
    | none => s
    | some nd => { s with nodes := s.nodes.set i { nd with data := nd.data ++ bytes } }
  | .truncate i size =>
    match s.nodes[i]? with
    | none => s
    | some nd => { s with nodes := s.nodes.set i { nd with data := nd.data.take size } }
  | .unlink path => { s with dir := s.dir.filter (fun e => e.1 ≠ path) }
  | .create path nd =>
    { s with nodes := s.nodes ++ [nd],
             dir := s.dir.filter (fun e => e.1 ≠ path) ++ [(path, s.nodes.length)] }

/-- The file a path names. -/
def SimWorld.lookup (s : SimWorld) (path : String) : Option SimNode :=
  match s.dir.lookup path with
  | none => none
  | some i => s.nodes[i]?

/-- Metadata of a file. -/
def SimWorld.info (s : SimWorld) (nd : SimNode) : FileInfo :=
  { Sys := if s.posix then .stat ⟨nd.Ino, nd.Dev, nd.data.length⟩ else .foreign }

/-- Model of `os.OpenFile(name, os.O_RDONLY, 0644)`. -/
def simOpenFile (s : SimWorld) (path : String) : SimWorld × Except Error SimFile :=
  match s.dir.lookup path with
  | none => (s, .error (.other ("open " ++ path ++ ": no such file or directory")))
  | some i =>
    match s.nodes[i]? with
    | none => (s, .error (.other ("open " ++ path ++ ": no such file or directory")))
    | some nd =>
      if nd.readable then
        ({ s with fds := s.fds ++ [⟨i, 0, false⟩] }, .ok ⟨s.fds.length, path⟩)
      else (s, .error (.other ("open " ++ path ++ ": permission denied")))

/-- Model of `os.Stat(name)`. -/
def simStat (s : SimWorld) (path : String) : Except Error FileInfo :=
  match s.lookup path with
  | none => .error (.other ("stat " ++ path ++ ": no such file or directory"))
  | some nd => .ok (s.info nd)

/-- Model of `(*os.File).Stat`. -/
def simFStat (s : SimWorld) (h : SimFile) : Except Error FileInfo :=
  match s.fds[h.fd]? with
  | none => .error (.other ("stat " ++ h.name ++ ": bad file descriptor"))
  | some d =>
    if d.closed then .error (.other ("stat " ++ h.name ++ ": use of closed file"))
    else
      match s.nodes[d.node]? with
      | none => .error (.other ("stat " ++ h.name ++ ": bad file descriptor"))
      | some nd => .ok (s.info nd)

/-- Model of `(*os.File).Read`: a read into an empty slice returns `(0, nil)`; at or past
the end of the file it returns `(0, io.EOF)`; otherwise it copies what fits. -/
def simRead (s : SimWorld) (h : SimFile) (p : Buf) : SimWorld × Buf × Int × Option Error :=
  match s.fds[h.fd]? with
  | none => (s, p, 0, some (.other ("read " ++ h.name ++ ": bad file descriptor")))
  | some d =>
    if d.closed then (s, p, 0, some (.other ("read " ++ h.name ++ ": file already closed")))
    else if p.length = 0 then (s, p, 0, none)
    else
      match s.nodes[d.node]? with
      | none => (s, p, 0, some (.other ("read " ++ h.name ++ ": bad file descriptor")))
      | some nd =>
        let chunk := (nd.data.drop d.off).take p.length
        if chunk.length = 0 then (s, p, 0, some .EOF)
        else
          ({ s with fds := s.fds.set h.fd { d with off := d.off + chunk.length } },
            chunk ++ p.drop chunk.length, (chunk.length : Int), none)

/-- Model of `(*os.File).Seek(0, os.SEEK_END)`. -/
def simSeek (s : SimWorld) (h : SimFile) : SimWorld × Except Error Int :=
  match s.fds[h.fd]? with
  | none => (s, .error (.other ("seek " ++ h.name ++ ": bad file descriptor")))
  | some d =>
    if d.closed then (s, .error (.other ("seek " ++ h.name ++ ": file already closed")))
    else
      match s.nodes[d.node]? with
      | none => (s, .error (.other ("seek " ++ h.name ++ ": bad file descriptor")))
      | some nd =>
        if nd.seekable then
          ({ s with fds := s.fds.set h.fd { d with off := nd.data.length } },
            .ok (nd.data.length : Int))
        else (s, .error (.other ("seek " ++ h.name ++ ": illegal seek")))

/-- Model of `(*os.File).Close`. -/
def simClose (s : SimWorld) (h : SimFile) : SimWorld :=
  match s.fds[h.fd]? with
  | none => s
  | some d => { s with fds := s.fds.set h.fd { d with closed := true } }

/-- Model of `time.Sleep`: the other processes run the next entry of the script. -/
def simSleep (s : SimWorld) (_d : Int) : SimWorld :=
  match s.script with
  | [] => s
  | acts :: rest => acts.foldl SimWorld.act { s with script := rest }

/-- The small file system as an implementation of the library interface. -/
def simOS : OS SimWorld SimFile where
  OpenFile := simOpenFile
  Stat := simStat
  Name := fun h => h.name
  FStat := simFStat
  Read := simRead
  Seek := simSeek
  Close := simClose
  Sleep := simSleep

/-- A regular, readable file on device 1. -/
def regular (ino : Nat) (data : List Nat) : SimNode :=
  { Dev := 1, Ino := ino, data := data, readable := true, seekable := true }

/-- The handle `h` is drained for a sequence of reads into the buffers `ps`: each of
them, made one after the other from the state `os`, yields `(0, io.EOF)`. -/
def drainedFor {σ H : Type} (sys : OS σ H) (h : H) : List Buf → σ → Prop
  | [], _ => True
  | p :: ps, os =>
    (sys.Read os h p).2.2 = (0, some Error.EOF) ∧ drainedFor sys h ps (sys.Read os h p).1

/-! ## Scenarios -/

/-- A world whose only file is `log`, holding the given bytes. -/
def logWorld (data : List Nat) (script : List (List SimAction)) : World SimWorld SimFile :=
  ⟨{ nodes := [regular 10 data], dir := [("log", 0)], fds := [], posix := true,
     script := script }, []⟩

/-- The reader `Open("log")` returns in `logWorld [49, 50] []`. -/
def drainedFile : File SimFile :=
  { osFile := ⟨0, "log"⟩, Follow := FollowDisable, NamePattern := "",
    SleepInterval := Second, notChanged := 0, lastPos := 2 }

/-- The world `Open("log")` leaves from `logWorld [49, 50] []`. -/
def drainedWorld : World SimWorld SimFile :=
  (Open simOS (logWorld [49, 50] []) "log").1

/-- The world of `drainedWorld` after another process appended the bytes `51, 52, 53`. -/
def appendedWorld : World SimWorld SimFile :=
  ⟨drainedWorld.os.act (.append 0 [51, 52, 53]), drainedWorld.trace⟩

/-- The reader `OpenName("log")` returns when `log` holds one byte. -/
def nameFile : File SimFile :=
  { osFile := ⟨0, "log"⟩, Follow := FollowName, NamePattern := "log",
    SleepInterval := Second, notChanged := 0, lastPos := 1 }

/-- The world `OpenName("log")` leaves from `logWorld [48] script`. -/
def nameWorld (script : List (List SimAction)) : World SimWorld SimFile :=
  (OpenName simOS (logWorld [48] script) "log").1

/-- Rotation by another process: `log` is removed and created anew, holding the byte 50. -/
def rotate : List SimAction :=
  [.unlink "log", .create "log" (regular 11 [50])]

/-- The world of `nameWorld []` once another process has rotated `log`. -/
def rotatedWorld : World SimWorld SimFile :=
  ⟨rotate.foldl SimWorld.act (nameWorld []).os, (nameWorld []).trace⟩

/-- The world of `nameWorld []` once another process has removed `log`. -/
def unlinkedWorld : World SimWorld SimFile :=
  ⟨(nameWorld []).os.act (.unlink "log"), (nameWorld []).trace⟩

/-- A world whose only file is the pipe `pipe`: it opens, it does not seek. -/
def pipeWorld : World SimWorld SimFile :=
  ⟨{ nodes := [{ Dev := 1, Ino := 20, data := [], readable := true, seekable := false }],
     dir := [("pipe", 0)], fds := [], posix := true, script := [] }, []⟩

/-- The reader of `nameFile` with another `NamePattern`, naming a file that does not exist. -/
def otherPatternFile : File SimFile :=
  { nameFile with NamePattern := "other.log" }

/-- Rotation by another process to a file the reader may stat but not open. -/
def rotateUnreadable : List SimAction :=
  [.unlink "log",
   .create "log" { Dev := 1, Ino := 12, data := [50], readable := false, seekable := true }]

/-- The world of `nameWorld []` once another process has rotated `log` to a file the
reader may not open. -/
def unreadableWorld : World SimWorld SimFile :=
  ⟨rotateUnreadable.foldl SimWorld.act (nameWorld []).os, (nameWorld []).trace⟩

/-- The reader `OpenDescriptor("log")` returns when `log` holds one byte. -/
def descriptorFile : File SimFile :=
  { osFile := ⟨0, "log"⟩, Follow := FollowDescriptor, NamePattern := "",
    SleepInterval := Second, notChanged := 0, lastPos := 1 }

/-- The world `OpenDescriptor("log")` leaves from `logWorld [48] script`. -/
def descriptorWorld (script : List (List SimAction)) : World SimWorld SimFile :=
  (OpenDescriptor simOS (logWorld [48] script) "log").1

/-- The world of `nameWorld [rotate]` after another process appended the byte 49 to
`log`; the rotation is still to come, during the next sleep. -/
def busyWorld : World SimWorld SimFile :=
  ⟨(nameWorld [rotate]).os.act (.append 0 [49]), (nameWorld [rotate]).trace⟩

/-- The world of `nameWorld []` once `log` names a file on another device (say, after a
mount over its directory) that has the inode number and the size of the tracked file. -/
def movedWorld : World SimWorld SimFile :=
  ⟨[SimAction.unlink "log",
     SimAction.create "log"
       { Dev := 2, Ino := 10, data := [48], readable := true, seekable := true }].foldl
      SimWorld.act (nameWorld []).os,
    (nameWorld []).trace⟩

/-- Rotation by another process to a file that is empty at first; a byte is written to
the new file during the sleep after. -/
def rotateEmpty : List (List SimAction) :=
  [[.unlink "log", .create "log" (regular 11 [])], [.append 1 [50]]]

/-- The reader `OpenName("log")` returns when `log` holds two bytes. -/
def truncFile : File SimFile :=
  { nameFile with lastPos := 2 }

/-- The world `OpenName("log")` leaves from a `log` holding the bytes 48 and 49 that
another process will truncate to its first byte during the first sleep. -/
def truncWorld : World SimWorld SimFile :=
  (OpenName simOS (logWorld [48, 49] [[.truncate 0 1]]) "log").1

end Tail

namespace Tail

/-! ## Arithmetic of the wrap-around -/

lemma wrapInt64_of_isInt64 {x : Int} (hx : isInt64 x) : wrapInt64 x = x := by
  unfold isInt64 at hx
  unfold wrapInt64
  omega

lemma wrapInt64_add_zero {x : Int} (hx : isInt64 x) : wrapInt64 (x + 0) = x := by
  rw [Int.add_zero]
  exact wrapInt64_of_isInt64 hx

lemma wrapInt64_wrap_add (x y : Int) : wrapInt64 (wrapInt64 x + y) = wrapInt64 (x + y) := by
  unfold wrapInt64
  omega

lemma isInt64_wrapInt64 (x : Int) : isInt64 (wrapInt64 x) := by
  unfold isInt64 wrapInt64
  omega

/-! ## The loop body, case by case -/

/-- The read did not signal end-of-stream, or the reader does not follow: the body returns. -/
lemma ReadBody_ret {σ H : Type} (sys : OS σ H) (w : World σ H) (f : File H) (p : Buf)
    (os1 : σ) (p1 : Buf) (n : Int) (err : Option Error)
    (hread : sys.Read w.os f.osFile p = (os1, p1, n, err))
    (hcase : err ≠ some Error.EOF ∨ f.Follow = FollowDisable) :
    File.ReadBody sys w f p =
      (⟨os1, w.trace ++ [Event.Read f.osFile]⟩,
        { f with lastPos := wrapInt64 (f.lastPos + n) }, p1, .ret n err) := by
  unfold File.ReadBody
  rw [hread]
  rcases hcase with h | h
  · simp [h]
  · by_cases he : err = some Error.EOF
    · simp [he, h]
    · simp [he]

/-- With fuel left, a body that returns ends the call. -/
lemma Read_of_body_ret {σ H : Type} (sys : OS σ H) (fuel : Nat) (w : World σ H) (f : File H)
    (p : Buf) (w1 : World σ H) (f1 : File H) (p1 : Buf) (n : Int) (err : Option Error)
    (hbody : File.ReadBody sys w f p = (w1, f1, p1, .ret n err)) :
    File.Read sys (fuel + 1) w f p = some ⟨w1, f1, p1, n, err⟩ := by
  simp [File.Read, hbody]

/-- With fuel left, a body that continues hands over to the next pass. -/
lemma Read_of_body_again {σ H : Type} (sys : OS σ H) (fuel : Nat) (w : World σ H) (f : File H)
    (p : Buf) (w1 : World σ H) (f1 : File H) (p1 : Buf)
    (hbody : File.ReadBody sys w f p = (w1, f1, p1, .again)) :
    File.Read sys (fuel + 1) w f p = File.Read sys fuel w1 f1 p1 := by
  simp [File.Read, hbody]

/-! ## Pass-through return of `Read` -/

/-- A drained handle in a reader that does not follow: every call returns `(0, io.EOF)`
and leaves the reader as it was. -/
lemma readCalls_drained {σ H : Type} (sys : OS σ H) (f : File H)
    (hF : f.Follow = FollowDisable) (hpos : isInt64 f.lastPos) :
    ∀ (calls : List (Nat × Buf)) (w : World σ H) (led : Ledger),
      (∀ c ∈ calls, 0 < c.1) → drainedFor sys f.osFile (calls.map Prod.snd) w.os →
      ∃ w2 led2, readCalls sys calls w f led =
        some (List.replicate calls.length (0, some Error.EOF), w2, f, led2) := by
  intro calls
  induction calls with
  | nil => intro w led _ _; exact ⟨w, led, rfl⟩
  | cons c rest ih =>
    intro w led hfuel hdr
    obtain ⟨fuel, p⟩ := c
    have hpos1 : 0 < fuel := hfuel (fuel, p) (List.mem_cons_self _ _)
    obtain ⟨k, rfl⟩ : ∃ k, fuel = k + 1 := ⟨fuel - 1, by omega⟩
    simp only [List.map_cons, drainedFor] at hdr
    obtain ⟨hrd, hrest⟩ := hdr
    have hread : sys.Read w.os f.osFile p =
        ((sys.Read w.os f.osFile p).1, (sys.Read w.os f.osFile p).2.1, 0, some Error.EOF) := by
      rw [← hrd]
    have hbody := ReadBody_ret sys w f p _ _ _ _ hread (Or.inr hF)
    have hf : ({ f with lastPos := wrapInt64 (f.lastPos + 0) } : File H) = f := by
      rw [wrapInt64_add_zero hpos]
    rw [hf] at hbody
    have hcall := Read_of_body_ret sys k w f p _ _ _ _ _ hbody
    obtain ⟨w2, led2, hrec⟩ := ih ⟨(sys.Read w.os f.osFile p).1, w.trace ++ [Event.Read f.osFile]⟩
      (led.record
        ((w.trace ++ [Event.Read f.osFile]).drop w.trace.length) 0)
      (fun c hc => hfuel c (List.mem_cons_of_mem _ hc)) hrest
    refine ⟨w2, led2, ?_⟩
    simp only [readCalls, hcall, hrec, List.length_cons, List.replicate_succ]

/-- C1. Pass-through return of `Read`. (1) If the first underlying read returns
`(n, err)` with `err` not end-of-stream (whatever the follow mode), or returns
end-of-stream while `Follow` is `FollowDisable`, then `Read` (with any fuel at all)
returns exactly `(n, err)`; the only library call it makes is that one read (no sleep,
no stat, no open, no close), and the reader is unchanged but for `n` added to
`lastPos`. (2) For a `FollowDisable` reader whose handle is drained, every call of a
sequence of calls of `Read` returns `(0, io.EOF)` and the reader, `lastPos` included,
is left unchanged. -/
theorem Read_pass_through {σ H : Type} (sys : OS σ H) :
    (∀ (w : World σ H) (f : File H) (p : Buf) (os1 : σ) (p1 : Buf) (n : Int)
        (err : Option Error),
        sys.Read w.os f.osFile p = (os1, p1, n, err) →
        (err ≠ some Error.EOF ∨ f.Follow = FollowDisable) →
        ∀ fuel : Nat, File.Read sys (fuel + 1) w f p =
          some ⟨⟨os1, w.trace ++ [Event.Read f.osFile]⟩,
                { f with lastPos := wrapInt64 (f.lastPos + n) }, p1, n, err⟩) ∧
    (∀ (w : World σ H) (f : File H) (calls : List (Nat × Buf)) (led : Ledger),
        f.Follow = FollowDisable → isInt64 f.lastPos →
        (∀ c ∈ calls, 0 < c.1) →
        drainedFor sys f.osFile (calls.map Prod.snd) w.os →
        ∃ w2 led2, readCalls sys calls w f led =
          some (List.replicate calls.length (0, some Error.EOF), w2, f, led2)) := by
  refine ⟨?_, ?_⟩
  · intro w f p os1 p1 n err hread hcase fuel
    exact Read_of_body_ret sys fuel w f p _ _ _ _ _ (ReadBody_ret sys w f p os1 p1 n err hread hcase)
  · intro w f calls led hF hpos hfuel hdr
    exact readCalls_drained sys f hF hpos calls w led hfuel hdr

/-- Witness of C1: a read of appended bytes passes through, and three calls on the
drained handle of a reader that does not follow each return `(0, io.EOF)`. -/
theorem Read_pass_through_witness :
    (Open simOS (logWorld [49, 50] []) "log" = (drainedWorld, some drainedFile, none) ∧
      (simOS.Read appendedWorld.os drainedFile.osFile [0, 0] =
        ((simOS.Read appendedWorld.os drainedFile.osFile [0, 0]).1, [51, 52], 2, none) ∧
      ((none : Option Error) ≠ some Error.EOF ∨ drainedFile.Follow = FollowDisable)) ∧
      File.Read simOS (0 + 1) appendedWorld drainedFile [0, 0] =
        some ⟨⟨(simOS.Read appendedWorld.os drainedFile.osFile [0, 0]).1,
                appendedWorld.trace ++ [Event.Read drainedFile.osFile]⟩,
              { drainedFile with lastPos := wrapInt64 (drainedFile.lastPos + 2) },
              [51, 52], 2, none⟩) ∧
    ((drainedFile.Follow = FollowDisable ∧ isInt64 drainedFile.lastPos ∧
        drainedFor simOS drainedFile.osFile
          ([(1, [0, 0]), (1, [0]), (3, [0, 0, 0])].map Prod.snd) drainedWorld.os) ∧
      ∃ w2 led2,
        readCalls simOS [(1, [0, 0]), (1, [0]), (3, [0, 0, 0])] drainedWorld drainedFile
            ⟨2, 0⟩ =
          some (List.replicate 3 (0, some Error.EOF), w2, drainedFile, led2)) :=
  ⟨⟨by rfl, ⟨by rfl, Or.inl (by decide)⟩,
      (Read_pass_through simOS).1 appendedWorld drainedFile [0, 0] _ [51, 52] 2 none
        (by rfl) (Or.inl (by decide)) 0⟩,
    ⟨⟨by rfl, by decide, ⟨by decide, by decide, by decide, trivial⟩⟩,
      (Read_pass_through simOS).2 drainedWorld drainedFile
        [(1, [0, 0]), (1, [0]), (3, [0, 0, 0])] ⟨2, 0⟩ (by rfl) (by decide)
        (by decide) ⟨by decide, by decide, by decide, trivial⟩⟩⟩

/-! ## The rotation detector -/

/-- Both stats succeed and expose a `*syscall.Stat_t`: the three comparisons decide. -/
lemma IsInaccessible_of_stats {σ H : Type} (sys : OS σ H) (w : World σ H) (f : File H)
    (statA statB : FileInfo) (A B : fileInfo)
    (hA : sys.Stat w.os (sys.Name f.osFile) = .ok statA)
    (hB : sys.FStat w.os f.osFile = .ok statB)
    (hfa : newFileInfo statA = .ok A) (hfb : newFileInfo statB = .ok B) :
    File.IsInaccessible sys w f =
      (⟨w.os, w.trace ++ [Event.Stat (sys.Name f.osFile), Event.FStat f.osFile]⟩, f,
        decide (A.Dev ≠ B.Dev ∨ A.Inode ≠ B.Inode ∨ A.Size < f.lastPos), none) := by
  unfold File.IsInaccessible
  simp only [hA, hB, hfa, hfb]
  by_cases h1 : A.Dev = B.Dev <;> by_cases h2 : A.Inode = B.Inode <;>
    by_cases h3 : A.Size < f.lastPos <;> simp [h1, h2, h3]

/-- The detector hands the reader back as it got it, and the library calls it makes
are `os.Stat` on the name of the owned handle, then possibly `Stat` on the handle. -/
lemma IsInaccessible_frame {σ H : Type} (sys : OS σ H) (w : World σ H) (f : File H) :
    (File.IsInaccessible sys w f).2.1 = f ∧
    (File.IsInaccessible sys w f).1.os = w.os ∧
    ((File.IsInaccessible sys w f).1.trace = w.trace ++ [Event.Stat (sys.Name f.osFile)] ∨
     (File.IsInaccessible sys w f).1.trace =
        w.trace ++ [Event.Stat (sys.Name f.osFile), Event.FStat f.osFile]) := by
  unfold File.IsInaccessible
  cases hA : sys.Stat w.os (sys.Name f.osFile) with
  | error e => simp
  | ok statA =>
    cases hB : sys.FStat w.os f.osFile with
    | error e => simp
    | ok statB =>
      cases hfa : newFileInfo statA with
      | error e => simp [hfa]
      | ok A =>
        cases hfb : newFileInfo statB with
        | error e => simp [hfa, hfb]
        | ok B =>
          by_cases h1 : A.Dev = B.Dev <;> by_cases h2 : A.Inode = B.Inode <;>
            by_cases h3 : A.Size < f.lastPos <;> simp [hfa, hfb, h1, h2, h3]

/-- Metadata without a `*syscall.Stat_t` makes `newFileInfo` fail. -/
lemma newFileInfo_error_of_no_stat (fi : FileInfo) (h : ∀ st, fi.Sys ≠ .stat st) :
    ∃ e, newFileInfo fi = .error e := by
  unfold newFileInfo
  cases hs : fi.Sys with
  | nil => exact ⟨_, rfl⟩
  | foreign => exact ⟨_, rfl⟩
  | stat st => exact absurd hs (h st)

/-- A failed stat, or metadata without device and inode, makes the detector fail. -/
lemma IsInaccessible_error {σ H : Type} (sys : OS σ H) (w : World σ H) (f : File H)
    (hfail : (∃ e, sys.Stat w.os (sys.Name f.osFile) = .error e) ∨
      (∃ e, sys.FStat w.os f.osFile = .error e) ∨
      (∃ a, sys.Stat w.os (sys.Name f.osFile) = .ok a ∧ ∀ st, a.Sys ≠ .stat st) ∨
      (∃ b, sys.FStat w.os f.osFile = .ok b ∧ ∀ st, b.Sys ≠ .stat st)) :
    ∃ e, (File.IsInaccessible sys w f).2.2 = (false, some e) := by
  cases hA : sys.Stat w.os (sys.Name f.osFile) with
  | error e => exact ⟨Errorf "failed to stat for name: " e, by simp [File.IsInaccessible, hA]⟩
  | ok statA =>
    cases hB : sys.FStat w.os f.osFile with
    | error e => exact ⟨Errorf "failed to stat for fd: " e, by simp [File.IsInaccessible, hA, hB]⟩
    | ok statB =>
      cases hfa : newFileInfo statA with
      | error e =>
        exact ⟨Errorf "failed to get sys for name: " e,
          by simp [File.IsInaccessible, hA, hB, hfa]⟩
      | ok A =>
        cases hfb : newFileInfo statB with
        | error e =>
          exact ⟨Errorf "failed to get sys for fd: " e,
            by simp [File.IsInaccessible, hA, hB, hfa, hfb]⟩
        | ok B =>
          exfalso
          rcases hfail with ⟨e, he⟩ | ⟨e, he⟩ | ⟨a, ha, hna⟩ | ⟨b, hb, hnb⟩
          · rw [hA] at he; cases he
          · rw [hB] at he; cases he
          · rw [hA] at ha
            cases ha
            obtain ⟨e, he⟩ := newFileInfo_error_of_no_stat statA hna
            rw [hfa] at he; cases he
          · rw [hB] at hb
            cases hb
            obtain ⟨e, he⟩ := newFileInfo_error_of_no_stat statB hnb
            rw [hfb] at he; cases he

/-- What `newFileInfo` makes of metadata that carries a `*syscall.Stat_t`. -/
lemma newFileInfo_of_stat (fi : FileInfo) (st : Stat_t) (h : fi.Sys = .stat st) :
    newFileInfo fi = .ok { Inode := st.Ino, Dev := toUint64 st.Dev, Size := st.Size } := by
  unfold newFileInfo
  rw [h]

/-- Both stats succeed and carry a `*syscall.Stat_t`: the detector compares the device,
the inode and the size found there. -/
lemma IsInaccessible_of_sys {σ H : Type} (sys : OS σ H) (w : World σ H) (f : File H)
    (statA statB : FileInfo) (a b : Stat_t)
    (hA : sys.Stat w.os (sys.Name f.osFile) = .ok statA)
    (hB : sys.FStat w.os f.osFile = .ok statB)
    (hsA : statA.Sys = .stat a) (hsB : statB.Sys = .stat b) :
    File.IsInaccessible sys w f =
      (⟨w.os, w.trace ++ [Event.Stat (sys.Name f.osFile), Event.FStat f.osFile]⟩, f,
        decide (toUint64 a.Dev ≠ toUint64 b.Dev ∨ a.Ino ≠ b.Ino ∨ a.Size < f.lastPos),
        none) :=
  IsInaccessible_of_stats sys w f statA statB _ _ hA hB
    (newFileInfo_of_stat statA a hsA) (newFileInfo_of_stat statB b hsB)

/-- C4. Decision rule of `IsInaccessible`: when the stat of the path and the stat of the
owned handle both succeed and expose device and inode (a `*syscall.Stat_t`, `a` for the
path and `b` for the handle), the identities compared are `A = (a.Ino, uint64(a.Dev),
a.Size)` and `B = (b.Ino, uint64(b.Dev), b.Size)`; the detector returns no error,
returns `true` exactly when `A.Dev ≠ B.Dev` or `A.Inode ≠ B.Inode` or
`A.Size < lastPos`, `false` otherwise, and hands the reader back unmodified. -/
theorem IsInaccessible_decision {σ H : Type} (sys : OS σ H) (w : World σ H) (f : File H)
    (statA statB : FileInfo) (a b : Stat_t)
    (hA : sys.Stat w.os (sys.Name f.osFile) = .ok statA)
    (hB : sys.FStat w.os f.osFile = .ok statB)
    (hsA : statA.Sys = .stat a) (hsB : statB.Sys = .stat b) :
    newFileInfo statA = .ok { Inode := a.Ino, Dev := toUint64 a.Dev, Size := a.Size } ∧
    newFileInfo statB = .ok { Inode := b.Ino, Dev := toUint64 b.Dev, Size := b.Size } ∧
    (File.IsInaccessible sys w f).2.2.2 = none ∧
    ((File.IsInaccessible sys w f).2.2.1 = true ↔
      (toUint64 a.Dev ≠ toUint64 b.Dev ∨ a.Ino ≠ b.Ino ∨ a.Size < f.lastPos)) ∧
    ((File.IsInaccessible sys w f).2.2.1 = false ↔
      ¬ (toUint64 a.Dev ≠ toUint64 b.Dev ∨ a.Ino ≠ b.Ino ∨ a.Size < f.lastPos)) ∧
    (File.IsInaccessible sys w f).2.1 = f := by
  rw [IsInaccessible_of_sys sys w f statA statB a b hA hB hsA hsB]
  refine ⟨newFileInfo_of_stat statA a hsA, newFileInfo_of_stat statB b hsB, rfl, ?_, ?_, rfl⟩
  · simp only [decide_eq_true_eq]
  · simp only [decide_eq_false_iff_not]

/-- Witness of C4: `log` now names a file on device 2 with the inode number 10 and the
size 1 of the tracked file, which is on device 1; the detector answers `true`, for the
device alone. -/
theorem IsInaccessible_decision_witness :
    (simOS.Stat movedWorld.os (simOS.Name nameFile.osFile) = .ok ⟨.stat ⟨10, 2, 1⟩⟩ ∧
      simOS.FStat movedWorld.os nameFile.osFile = .ok ⟨.stat ⟨10, 1, 1⟩⟩ ∧
      (⟨.stat ⟨10, 2, 1⟩⟩ : FileInfo).Sys = .stat ⟨10, 2, 1⟩ ∧
      (⟨.stat ⟨10, 1, 1⟩⟩ : FileInfo).Sys = .stat ⟨10, 1, 1⟩) ∧
    (File.IsInaccessible simOS movedWorld nameFile).2.2 = (true, none) ∧
    (newFileInfo ⟨.stat ⟨10, 2, 1⟩⟩ = .ok { Inode := 10, Dev := toUint64 2, Size := 1 } ∧
    newFileInfo ⟨.stat ⟨10, 1, 1⟩⟩ = .ok { Inode := 10, Dev := toUint64 1, Size := 1 } ∧
    (File.IsInaccessible simOS movedWorld nameFile).2.2.2 = none ∧
    ((File.IsInaccessible simOS movedWorld nameFile).2.2.1 = true ↔
      (toUint64 2 ≠ toUint64 1 ∨ (10 : Nat) ≠ 10 ∨ (1 : Int) < nameFile.lastPos)) ∧
    ((File.IsInaccessible simOS movedWorld nameFile).2.2.1 = false ↔
      ¬ (toUint64 2 ≠ toUint64 1 ∨ (10 : Nat) ≠ 10 ∨ (1 : Int) < nameFile.lastPos)) ∧
    (File.IsInaccessible simOS movedWorld nameFile).2.1 = nameFile) :=
  ⟨⟨by rfl, by rfl, by rfl, by rfl⟩, by rfl,
    IsInaccessible_decision simOS movedWorld nameFile ⟨.stat ⟨10, 2, 1⟩⟩ ⟨.stat ⟨10, 1, 1⟩⟩
      ⟨10, 2, 1⟩ ⟨10, 1, 1⟩ (by rfl) (by rfl) (by rfl) (by rfl)⟩

/-! ## The loop body at end-of-stream in name mode -/

/-- Neither disabled nor descriptor mode, at end-of-stream, with the counter not above
4 after its increment: the body sleeps and runs the rotation check. -/
lemma ReadBody_check_of_ne {σ H : Type} (sys : OS σ H) (w : World σ H) (f : File H)
    (p : Buf) (os1 : σ) (p1 : Buf) (n : Int)
    (h0 : f.Follow ≠ FollowDisable) (h1 : f.Follow ≠ FollowDescriptor)
    (hread : sys.Read w.os f.osFile p = (os1, p1, n, some Error.EOF))
    (hnc : ¬ wrapInt64 (f.notChanged + 1) > 4) :
    File.ReadBody sys w f p =
      (match File.IsInaccessible sys
          ⟨sys.Sleep os1 f.SleepInterval,
            w.trace ++ [Event.Read f.osFile] ++ [Event.Sleep f.SleepInterval]⟩
          { f with lastPos := wrapInt64 (f.lastPos + n), notChanged := 0 } with
      | (w3, f4, b, err2) =>
        if err2 ≠ none then (w3, f4, p1, .ret 0 err2)
        else if b then
          match File.reopen sys w3 f4 with
          | (w4, f5, _) => (w4, f5, p1, .again)
        else (w3, f4, p1, .again)) := by
  unfold File.ReadBody
  rw [hread]
  simp only [ne_eq, not_true_eq_false, if_false, h0, h1, hnc]

/-- Neither disabled nor descriptor mode, at end-of-stream, with the counter above 4
after its increment: the body sleeps and goes round again without a rotation check. -/
lemma ReadBody_skip_of_ne {σ H : Type} (sys : OS σ H) (w : World σ H) (f : File H)
    (p : Buf) (os1 : σ) (p1 : Buf) (n : Int)
    (h0 : f.Follow ≠ FollowDisable) (h1 : f.Follow ≠ FollowDescriptor)
    (hread : sys.Read w.os f.osFile p = (os1, p1, n, some Error.EOF))
    (hnc : wrapInt64 (f.notChanged + 1) > 4) :
    File.ReadBody sys w f p =
      (⟨sys.Sleep os1 f.SleepInterval,
          w.trace ++ [Event.Read f.osFile] ++ [Event.Sleep f.SleepInterval]⟩,
        { f with lastPos := wrapInt64 (f.lastPos + n),
                 notChanged := wrapInt64 (f.notChanged + 1) }, p1, .again) := by
  unfold File.ReadBody
  rw [hread]
  simp only [ne_eq, not_true_eq_false, if_false, h0, h1, hnc, if_true]

/-- In name mode, at end-of-stream, with the counter not above 4 after its increment:
the body sleeps and runs the rotation check. -/
lemma ReadBody_check {σ H : Type} (sys : OS σ H) (w : World σ H) (f : File H) (p : Buf)
    (os1 : σ) (p1 : Buf) (n : Int)
    (hF : f.Follow = FollowName)
    (hread : sys.Read w.os f.osFile p = (os1, p1, n, some Error.EOF))
    (hnc : ¬ wrapInt64 (f.notChanged + 1) > 4) :
    File.ReadBody sys w f p =
      (match File.IsInaccessible sys
          ⟨sys.Sleep os1 f.SleepInterval,
            w.trace ++ [Event.Read f.osFile] ++ [Event.Sleep f.SleepInterval]⟩
          { f with lastPos := wrapInt64 (f.lastPos + n), notChanged := 0 } with
      | (w3, f4, b, err2) =>
        if err2 ≠ none then (w3, f4, p1, .ret 0 err2)
        else if b then
          match File.reopen sys w3 f4 with
          | (w4, f5, _) => (w4, f5, p1, .again)
        else (w3, f4, p1, .again)) :=
  ReadBody_check_of_ne sys w f p os1 p1 n (by rw [hF]; decide) (by rw [hF]; decide)
    hread hnc

/-- C6. Rotation-check failure is not swallowed. (1) If the stat of the path fails, or
the stat of the owned handle fails, or either metadata lacks device and inode (its
`Sys()` is not a `*syscall.Stat_t`), `IsInaccessible` returns `false` with an error.
(2) In a `FollowName` reader, a pass of the loop of `Read` that reaches the rotation
check (end-of-stream, counter not above 4 after its increment) and gets an error `e`
from it ends the call: `Read` returns `(0, e)`; after the read and the sleep of that
pass its only library calls are the stats of the check (no open, no close, no further
read or sleep), and the owned handle is the one it had. -/
theorem rotation_check_failure {σ H : Type} (sys : OS σ H) :
    (∀ (w : World σ H) (f : File H),
      ((∃ e, sys.Stat w.os (sys.Name f.osFile) = .error e) ∨
        (∃ e, sys.FStat w.os f.osFile = .error e) ∨
        (∃ a, sys.Stat w.os (sys.Name f.osFile) = .ok a ∧ ∀ st, a.Sys ≠ .stat st) ∨
        (∃ b, sys.FStat w.os f.osFile = .ok b ∧ ∀ st, b.Sys ≠ .stat st)) →
      ∃ e, (File.IsInaccessible sys w f).2.2 = (false, some e)) ∧
    (∀ (w : World σ H) (f : File H) (p : Buf) (os1 : σ) (p1 : Buf) (n : Int) (e : Error),
      f.Follow = FollowName →
      sys.Read w.os f.osFile p = (os1, p1, n, some Error.EOF) →
      ¬ wrapInt64 (f.notChanged + 1) > 4 →
      (File.IsInaccessible sys
          ⟨sys.Sleep os1 f.SleepInterval,
            w.trace ++ [Event.Read f.osFile] ++ [Event.Sleep f.SleepInterval]⟩
          { f with lastPos := wrapInt64 (f.lastPos + n), notChanged := 0 }).2.2.2 = some e →
      ∀ fuel : Nat, ∃ out, File.Read sys (fuel + 1) w f p = some out ∧
        out.n = 0 ∧ out.err = some e ∧ out.f.osFile = f.osFile ∧
        out.w.os = sys.Sleep os1 f.SleepInterval ∧
        (out.w.trace = w.trace ++ [Event.Read f.osFile] ++ [Event.Sleep f.SleepInterval]
            ++ [Event.Stat (sys.Name f.osFile)] ∨
         out.w.trace = w.trace ++ [Event.Read f.osFile] ++ [Event.Sleep f.SleepInterval]
            ++ [Event.Stat (sys.Name f.osFile), Event.FStat f.osFile])) := by
  refine ⟨fun w f hfail => IsInaccessible_error sys w f hfail, ?_⟩
  intro w f p os1 p1 n e hF hread hnc hchk fuel
  have hbody := ReadBody_check sys w f p os1 p1 n hF hread hnc
  obtain ⟨hf, hos, htr⟩ := IsInaccessible_frame sys
    ⟨sys.Sleep os1 f.SleepInterval,
      w.trace ++ [Event.Read f.osFile] ++ [Event.Sleep f.SleepInterval]⟩
    { f with lastPos := wrapInt64 (f.lastPos + n), notChanged := 0 }
  generalize File.IsInaccessible sys
    ⟨sys.Sleep os1 f.SleepInterval,
      w.trace ++ [Event.Read f.osFile] ++ [Event.Sleep f.SleepInterval]⟩
    { f with lastPos := wrapInt64 (f.lastPos + n), notChanged := 0 } = r at hbody hchk hf hos htr
  obtain ⟨w3, f4, b, err2⟩ := r
  simp only at hchk hf hos htr
  subst hchk
  simp only [ne_eq, reduceCtorEq, not_false_eq_true, if_true] at hbody
  refine ⟨_, Read_of_body_ret sys fuel w f p _ _ _ _ _ hbody, rfl, rfl, ?_, hos, htr⟩
  simp only [hf]

/-- Witness of C6: `log` has been removed, so the detector fails; and a `Read` during
whose sleep `log` is removed returns `(0, e)` with the error of the detector. -/
theorem rotation_check_failure_witness :
    ((∃ e, simOS.Stat unlinkedWorld.os (simOS.Name nameFile.osFile) = .error e) ∧
      ∃ e, (File.IsInaccessible simOS unlinkedWorld nameFile).2.2 = (false, some e)) ∧
    ((nameFile.Follow = FollowName ∧
      simOS.Read (nameWorld [[.unlink "log"]]).os nameFile.osFile [0, 0] =
        ((nameWorld [[.unlink "log"]]).os, [0, 0], 0, some Error.EOF) ∧
      ¬ wrapInt64 (nameFile.notChanged + 1) > 4 ∧
      (File.IsInaccessible simOS
          ⟨simOS.Sleep (nameWorld [[.unlink "log"]]).os nameFile.SleepInterval,
            (nameWorld [[.unlink "log"]]).trace ++ [Event.Read nameFile.osFile] ++
              [Event.Sleep nameFile.SleepInterval]⟩
          { nameFile with lastPos := wrapInt64 (nameFile.lastPos + 0),
                          notChanged := 0 }).2.2.2 =
        some (.other "failed to stat for name: stat log: no such file or directory")) ∧
      ∃ out, File.Read simOS (0 + 1) (nameWorld [[.unlink "log"]]) nameFile [0, 0] = some out ∧
        out.n = 0 ∧
        out.err = some (.other "failed to stat for name: stat log: no such file or directory") ∧
        out.f.osFile = nameFile.osFile ∧
        out.w.os = simOS.Sleep (nameWorld [[.unlink "log"]]).os nameFile.SleepInterval ∧
        (out.w.trace = (nameWorld [[.unlink "log"]]).trace ++ [Event.Read nameFile.osFile] ++
            [Event.Sleep nameFile.SleepInterval] ++ [Event.Stat (simOS.Name nameFile.osFile)] ∨
         out.w.trace = (nameWorld [[.unlink "log"]]).trace ++ [Event.Read nameFile.osFile] ++
            [Event.Sleep nameFile.SleepInterval] ++
            [Event.Stat (simOS.Name nameFile.osFile), Event.FStat nameFile.osFile])) :=
  ⟨⟨⟨_, by rfl⟩,
      (rotation_check_failure simOS).1 unlinkedWorld nameFile (Or.inl ⟨_, by rfl⟩)⟩,
    ⟨⟨by rfl, by rfl, by decide, by rfl⟩,
      (rotation_check_failure simOS).2 (nameWorld [[.unlink "log"]]) nameFile [0, 0]
        (nameWorld [[.unlink "log"]]).os [0, 0] 0
        (.other "failed to stat for name: stat log: no such file or directory")
        (by rfl) (by rfl) (by decide) (by rfl) 0⟩⟩

/-! ## Which path is stat-ed and reopened -/

/-- The library calls of `reopen`: `os.OpenFile` on the name of the owned handle, then,
when that succeeded, `Close` of the owned handle. -/
lemma reopen_trace {σ H : Type} (sys : OS σ H) (w : World σ H) (f : File H) :
    (File.reopen sys w f).1.trace = w.trace ++ [Event.OpenFile (sys.Name f.osFile)] ∨
    (File.reopen sys w f).1.trace =
      w.trace ++ [Event.OpenFile (sys.Name f.osFile)] ++ [Event.Close f.osFile] := by
  unfold File.reopen
  rcases hO : sys.OpenFile w.os (sys.Name f.osFile) with ⟨os1, r⟩
  cases r with
  | error e => left; rfl
  | ok newf => right; rfl

/-- Counterexample to C8 as stated: a reader whose handle was opened as `log` and whose
`NamePattern` is `other.log`, a path that does not exist. The detector stats `log` and
reports no error, and `reopen` opens `log` and succeeds; had they used `NamePattern`,
both would have failed. -/
theorem NamePattern_is_not_consulted :
    otherPatternFile.NamePattern = "other.log" ∧
    simOS.Name otherPatternFile.osFile = "log" ∧
    (∃ e, simOS.Stat (nameWorld []).os "other.log" = .error e) ∧
    (∃ e, (simOS.OpenFile (nameWorld []).os "other.log").2 = .error e) ∧
    (File.IsInaccessible simOS (nameWorld []) otherPatternFile).1.trace =
      (nameWorld []).trace ++ [Event.Stat "log", Event.FStat ⟨0, "log"⟩] ∧
    (File.IsInaccessible simOS (nameWorld []) otherPatternFile).2.2 = (false, none) ∧
    (File.reopen simOS (nameWorld []) otherPatternFile).1.trace =
      (nameWorld []).trace ++ [Event.OpenFile "log", Event.Close ⟨0, "log"⟩] ∧
    (File.reopen simOS (nameWorld []) otherPatternFile).2.2 = none :=
  ⟨by rfl, by rfl, ⟨_, by rfl⟩, ⟨_, by rfl⟩, by rfl, by rfl, by rfl, by rfl⟩

/-- C8, amended. The path `IsInaccessible` stats and the path `reopen` opens is the
name of the owned handle (`f.Name()`, the path the handle was opened with); the field
`NamePattern` is read by neither, so readers that differ only in `NamePattern` get the
same answers and make the same library calls. For a reader returned by `OpenName(P)`,
on a library whose `OpenFile` names the handle by the path it was given, `NamePattern`
and the name of the owned handle are both `P`, and `reopen` keeps that name. -/
theorem rotation_path_is_handle_name {σ H : Type} (sys : OS σ H) :
    (∀ (w : World σ H) (f : File H),
      (File.IsInaccessible sys w f).1.trace = w.trace ++ [Event.Stat (sys.Name f.osFile)] ∨
      (File.IsInaccessible sys w f).1.trace =
        w.trace ++ [Event.Stat (sys.Name f.osFile), Event.FStat f.osFile]) ∧
    (∀ (w : World σ H) (f : File H),
      (File.reopen sys w f).1.trace = w.trace ++ [Event.OpenFile (sys.Name f.osFile)] ∨
      (File.reopen sys w f).1.trace =
        w.trace ++ [Event.OpenFile (sys.Name f.osFile)] ++ [Event.Close f.osFile]) ∧
    (∀ (w : World σ H) (f : File H) (q : String),
      File.IsInaccessible sys w { f with NamePattern := q } =
        ((File.IsInaccessible sys w f).1,
          { (File.IsInaccessible sys w f).2.1 with NamePattern := q },
          (File.IsInaccessible sys w f).2.2) ∧
      File.reopen sys w { f with NamePattern := q } =
        ((File.reopen sys w f).1, { (File.reopen sys w f).2.1 with NamePattern := q },
          (File.reopen sys w f).2.2)) ∧
    ((∀ (os : σ) (path : String) (os1 : σ) (h : H),
        sys.OpenFile os path = (os1, .ok h) → sys.Name h = path) →
      (∀ (w : World σ H) (path : String) (w1 : World σ H) (f : File H),
        OpenName sys w path = (w1, some f, none) →
          f.NamePattern = path ∧ sys.Name f.osFile = path) ∧
      (∀ (w : World σ H) (f : File H),
        sys.Name (File.reopen sys w f).2.1.osFile = sys.Name f.osFile)) := by
  refine ⟨fun w f => (IsInaccessible_frame sys w f).2.2, fun w f => reopen_trace sys w f,
    ?_, ?_⟩
  · intro w f q
    constructor
    · obtain ⟨hf, -, -⟩ := IsInaccessible_frame sys w f
      rw [hf]
      unfold File.IsInaccessible
      cases hA : sys.Stat w.os (sys.Name f.osFile) with
      | error e => simp
      | ok statA =>
        cases hB : sys.FStat w.os f.osFile with
        | error e => simp
        | ok statB =>
          cases hfa : newFileInfo statA with
          | error e => simp [hfa]
          | ok A =>
            cases hfb : newFileInfo statB with
            | error e => simp [hfa, hfb]
            | ok B =>
              by_cases h1 : A.Dev = B.Dev <;> by_cases h2 : A.Inode = B.Inode <;>
                by_cases h3 : A.Size < f.lastPos <;> simp [hfa, hfb, h1, h2, h3]
    · unfold File.reopen
      rcases hO : sys.OpenFile w.os (sys.Name f.osFile) with ⟨os1, r⟩
      cases r with
      | error e => simp [hO]
      | ok newf => simp [hO]
  · intro hname
    constructor
    · intro w path w1 f hopen
      unfold OpenName Open at hopen
      rcases hO : sys.OpenFile w.os path with ⟨os1, r⟩
      rw [hO] at hopen
      cases r with
      | error e => simp at hopen
      | ok h =>
        rcases hS : sys.Seek os1 h with ⟨os2, r2⟩
        simp only [hS] at hopen
        cases r2 with
        | error e => simp at hopen
        | ok n =>
          simp only [Prod.mk.injEq, Option.some.injEq, and_true] at hopen
          obtain ⟨-, hf⟩ := hopen
          subst hf
          exact ⟨rfl, hname _ _ _ _ hO⟩
    · intro w f
      unfold File.reopen
      rcases hO : sys.OpenFile w.os (sys.Name f.osFile) with ⟨os1, r⟩
      cases r with
      | error e => simp
      | ok newf => simpa using hname _ _ _ _ hO

/-- The small file system names a handle by the path it was opened with. -/
lemma simOS_OpenFile_name (os : SimWorld) (path : String) (os1 : SimWorld) (h : SimFile)
    (hopen : simOS.OpenFile os path = (os1, .ok h)) : simOS.Name h = path := by
  simp only [simOS, simOpenFile] at hopen
  split at hopen
  · simp at hopen
  · split at hopen
    · simp at hopen
    · split at hopen
      · simp only [Prod.mk.injEq, Except.ok.injEq] at hopen
        obtain ⟨-, hh⟩ := hopen
        subst hh
        rfl
      · simp at hopen

/-- Witness of C8, amended: the reader `OpenName("log")` returns on the small file
system has `NamePattern` and handle name `log`. -/
theorem rotation_path_is_handle_name_witness :
    (∀ (os : SimWorld) (path : String) (os1 : SimWorld) (h : SimFile),
        simOS.OpenFile os path = (os1, .ok h) → simOS.Name h = path) ∧
    OpenName simOS (logWorld [48] []) "log" = (nameWorld [], some nameFile, none) ∧
    (nameFile.NamePattern = "log" ∧ simOS.Name nameFile.osFile = "log") :=
  ⟨simOS_OpenFile_name, by rfl,
    ((rotation_path_is_handle_name simOS).2.2.2 simOS_OpenFile_name).1
      (logWorld [48] []) "log" (nameWorld []) nameFile (by rfl)⟩

/-! ## Constructors, case by case -/

/-- The three ways a constructor ends: the open fails, the seek fails, both succeed. -/
lemma constructors_cases {σ H : Type} (sys : OS σ H) (w : World σ H)
    (filename : String) :
    (∀ (os1 : σ) (e : Error), sys.OpenFile w.os filename = (os1, .error e) →
      Open sys w filename = (⟨os1, w.trace ++ [Event.OpenFile filename]⟩, none, some e) ∧
      OpenDescriptor sys w filename =
        (⟨os1, w.trace ++ [Event.OpenFile filename]⟩, none, some e) ∧
      OpenName sys w filename =
        (⟨os1, w.trace ++ [Event.OpenFile filename]⟩, none, some e)) ∧
    (∀ (os1 : σ) (h : H) (os2 : σ) (e : Error),
      sys.OpenFile w.os filename = (os1, .ok h) → sys.Seek os1 h = (os2, .error e) →
      Open sys w filename =
        (⟨os2, w.trace ++ [Event.OpenFile filename] ++ [Event.Seek h]⟩, none, some e) ∧
      OpenDescriptor sys w filename =
        (⟨os2, w.trace ++ [Event.OpenFile filename] ++ [Event.Seek h]⟩, none, some e) ∧
      OpenName sys w filename =
        (⟨os2, w.trace ++ [Event.OpenFile filename] ++ [Event.Seek h]⟩, none, some e)) ∧
    (∀ (os1 : σ) (h : H) (os2 : σ) (n : Int),
      sys.OpenFile w.os filename = (os1, .ok h) → sys.Seek os1 h = (os2, .ok n) →
      Open sys w filename =
        (⟨os2, w.trace ++ [Event.OpenFile filename] ++ [Event.Seek h]⟩,
          some { osFile := h, Follow := FollowDisable, NamePattern := "",
                 SleepInterval := Second, notChanged := 0, lastPos := n }, none) ∧
      OpenDescriptor sys w filename =
        (⟨os2, w.trace ++ [Event.OpenFile filename] ++ [Event.Seek h]⟩,
          some { osFile := h, Follow := FollowDescriptor, NamePattern := "",
                 SleepInterval := Second, notChanged := 0, lastPos := n }, none) ∧
      OpenName sys w filename =
        (⟨os2, w.trace ++ [Event.OpenFile filename] ++ [Event.Seek h]⟩,
          some { osFile := h, Follow := FollowName, NamePattern := filename,
                 SleepInterval := Second, notChanged := 0, lastPos := n }, none)) := by
  refine ⟨?_, ?_, ?_⟩
  · intro os1 e hO
    have hopen : Open sys w filename =
        (⟨os1, w.trace ++ [Event.OpenFile filename]⟩, none, some e) := by
      simp [Open, hO]
    refine ⟨hopen, ?_, ?_⟩
    · simp [OpenDescriptor, hopen]
    · simp [OpenName, hopen]
  · intro os1 h os2 e hO hS
    have hopen : Open sys w filename =
        (⟨os2, w.trace ++ [Event.OpenFile filename] ++ [Event.Seek h]⟩, none, some e) := by
      simp [Open, hO, hS]
    refine ⟨hopen, ?_, ?_⟩
    · simp [OpenDescriptor, hopen]
    · simp [OpenName, hopen]
  · intro os1 h os2 n hO hS
    have hopen : Open sys w filename =
        (⟨os2, w.trace ++ [Event.OpenFile filename] ++ [Event.Seek h]⟩,
          some { osFile := h, Follow := FollowDisable, NamePattern := "",
                 SleepInterval := Second, notChanged := 0, lastPos := n }, none) := by
      simp [Open, hO, hS]
    refine ⟨hopen, ?_, ?_⟩
    · simp [OpenDescriptor, hopen]
    · simp [OpenName, hopen]

/-! ## Defects of the loop in name mode -/

/-- C5, the code at the failing input. While the reader sleeps, `log` is rotated to a
file that can be stat-ed but not opened. The detector then answers `true` and `reopen`
returns the error of `os.OpenFile`, leaving the reader as it was; but the pass of the
loop drops that error and goes round again instead of returning `(0, e)`, and `Read`
is still running after 25 passes. -/
theorem reopen_error_is_dropped :
    OpenName simOS (logWorld [48] [rotateUnreadable]) "log" =
      (nameWorld [rotateUnreadable], some nameFile, none) ∧
    (File.IsInaccessible simOS unreadableWorld nameFile).2.2 = (true, none) ∧
    (File.reopen simOS unreadableWorld nameFile).2 =
      (nameFile, some (.other "open log: permission denied")) ∧
    (File.ReadBody simOS (nameWorld [rotateUnreadable]) nameFile [0, 0]).2 =
      (nameFile, [0, 0], Step.again) ∧
    (File.ReadBody simOS (nameWorld [rotateUnreadable]) nameFile [0, 0]).1.trace =
      (nameWorld [rotateUnreadable]).trace ++
        [Event.Read ⟨0, "log"⟩, Event.Sleep Second, Event.Stat "log",
         Event.FStat ⟨0, "log"⟩, Event.OpenFile "log"] ∧
    (File.Read simOS 25 (nameWorld [rotateUnreadable]) nameFile [0, 0]).isNone = true :=
  ⟨by rfl, by rfl, by rfl, by rfl, by rfl, by rfl⟩

/-- C9, the code at the failing input. A reader fresh from `OpenName` meets
end-of-stream once, and a byte is appended during the sleep: the rotation detector is
invoked right after that first sleep (the stats in the list of library calls), not
after the fifth, and the counter is back at 0. Conversely a reader whose counter is 4
goes round without asking the detector although `log` has been rotated, its counter
now 5. -/
theorem rotation_check_on_first_eof :
    OpenName simOS (logWorld [48] [[.append 0 [51]]]) "log" =
      (nameWorld [[.append 0 [51]]], some nameFile, none) ∧
    (File.Read simOS 2 (nameWorld [[.append 0 [51]]]) nameFile [0, 0]).map
        (fun out => (out.n, out.err, out.p, out.f.notChanged,
          out.w.trace.drop (nameWorld [[.append 0 [51]]]).trace.length)) =
      some (1, none, [51, 0], 0,
        [Event.Read ⟨0, "log"⟩, Event.Sleep Second, Event.Stat "log",
         Event.FStat ⟨0, "log"⟩, Event.Read ⟨0, "log"⟩]) ∧
    (File.ReadBody simOS (nameWorld []) nameFile [0, 0]).1.trace =
      (nameWorld []).trace ++
        [Event.Read ⟨0, "log"⟩, Event.Sleep Second, Event.Stat "log",
         Event.FStat ⟨0, "log"⟩] ∧
    (File.ReadBody simOS rotatedWorld { nameFile with notChanged := 4 } [0, 0]).2 =
      ({ nameFile with notChanged := 5 }, [0, 0], Step.again) ∧
    (File.ReadBody simOS rotatedWorld { nameFile with notChanged := 4 } [0, 0]).1.trace =
      rotatedWorld.trace ++ [Event.Read ⟨0, "log"⟩, Event.Sleep Second] :=
  ⟨by rfl, by rfl, by rfl, by rfl, by rfl⟩

/-! ## Descriptor mode -/

/-- In descriptor mode, at end-of-stream, the body sleeps and goes round again. -/
lemma ReadBody_descriptor_eof {σ H : Type} (sys : OS σ H) (w : World σ H) (f : File H)
    (p : Buf) (os1 : σ) (p1 : Buf) (n : Int)
    (hF : f.Follow = FollowDescriptor)
    (hread : sys.Read w.os f.osFile p = (os1, p1, n, some Error.EOF)) :
    File.ReadBody sys w f p =
      (⟨sys.Sleep os1 f.SleepInterval,
          w.trace ++ [Event.Read f.osFile] ++ [Event.Sleep f.SleepInterval]⟩,
        { f with lastPos := wrapInt64 (f.lastPos + n) }, p1, .again) := by
  unfold File.ReadBody
  rw [hread]
  have h0 : FollowDescriptor ≠ FollowDisable := by decide
  simp only [ne_eq, not_true_eq_false, if_false, hF, h0, if_true]

/-- Polling makes `k` sleeps, all of the same length, and neither stats, opens nor closes. -/
lemma pollTrace_calls {H : Type} (h : H) (d : Int) (k : Nat) :
    (pollTrace h d k).filter Event.isSleep = List.replicate k (Event.Sleep d) ∧
    (pollTrace h d k).any (fun e => e.isStat || e.isOpenFile || e.isClose) = false := by
  induction k with
  | zero => simp [pollTrace, Event.isSleep, Event.isStat, Event.isOpenFile, Event.isClose]
  | succ k ih =>
    obtain ⟨h1, h2⟩ := ih
    constructor
    · simp [pollTrace, Event.isSleep, h1, List.replicate_succ]
    · simpa [pollTrace, Event.isStat, Event.isOpenFile, Event.isClose] using h2

/-- Descriptor mode, by induction on the number of ends-of-stream. -/
lemma Read_descriptor_run {σ H : Type} (sys : OS σ H) (h : H) (d : Int) :
    ∀ (k : Nat) (w : World σ H) (f : File H) (p : Buf) (r : σ × Buf × Int × Option Error)
      (fuel : Nat),
      f.Follow = FollowDescriptor → f.osFile = h → f.SleepInterval = d →
      eofRun sys h d k w.os p = some r → k < fuel →
      ∃ out, File.Read sys fuel w f p = some out ∧
        out.n = r.2.2.1 ∧ out.err = r.2.2.2 ∧ out.err ≠ some Error.EOF ∧
        out.p = r.2.1 ∧ out.w.os = r.1 ∧ out.f.osFile = h ∧
        out.w.trace = w.trace ++ pollTrace h d k := by
  intro k
  induction k with
  | zero =>
    intro w f p r fuel hF hh hd hrun hfuel
    obtain ⟨m, rfl⟩ : ∃ m, fuel = m + 1 := ⟨fuel - 1, by omega⟩
    subst hh
    simp only [eofRun] at hrun
    split at hrun
    · rename_i hne
      simp only [Option.some.injEq] at hrun
      subst hrun
      have hbody := ReadBody_ret sys w f p _ _ _ _ rfl (Or.inl hne)
      exact ⟨_, Read_of_body_ret sys m w f p _ _ _ _ _ hbody, rfl, rfl, hne, rfl, rfl, rfl, rfl⟩
    · simp at hrun
  | succ k ih =>
    intro w f p r fuel hF hh hd hrun hfuel
    obtain ⟨m, rfl⟩ : ∃ m, fuel = m + 1 := ⟨fuel - 1, by omega⟩
    subst hh hd
    simp only [eofRun] at hrun
    split at hrun
    · rename_i heof
      have hread : sys.Read w.os f.osFile p =
          ((sys.Read w.os f.osFile p).1, (sys.Read w.os f.osFile p).2.1,
            (sys.Read w.os f.osFile p).2.2.1, some Error.EOF) := by
        rw [← heof]
      have hbody := ReadBody_descriptor_eof sys w f p _ _ _ hF hread
      obtain ⟨out, hout, h1, h2, h3, h4, h5, h6, h7⟩ :=
        ih ⟨sys.Sleep (sys.Read w.os f.osFile p).1 f.SleepInterval,
            w.trace ++ [Event.Read f.osFile] ++ [Event.Sleep f.SleepInterval]⟩
          { f with lastPos := wrapInt64 (f.lastPos + (sys.Read w.os f.osFile p).2.2.1) }
          (sys.Read w.os f.osFile p).2.1 r m hF rfl rfl hrun (by omega)
      refine ⟨out, ?_, h1, h2, h3, h4, h5, h6, ?_⟩
      · rw [Read_of_body_again sys m w f p _ _ _ hbody]
        exact hout
      · rw [h7]
        simp [pollTrace]
    · simp at hrun

/-- C2. `FollowDescriptor` mode of `Read`: if the successive reads of the owned handle
signal end-of-stream `k` times (a sleep of `SleepInterval` after each) and then answer
`(n, err)` with `err` not end-of-stream, then `Read`, given more fuel than `k`, returns
exactly `(n, err)`, never end-of-stream; its library calls are `k` times a read and a
sleep of `SleepInterval`, then the last read: exactly `k` sleeps, no stat (the rotation
detector is not invoked), no open and no close (no reopen), whatever happens to the
path meanwhile; and the owned handle is the same throughout. -/
theorem Read_followDescriptor {σ H : Type} (sys : OS σ H) (k : Nat) (w : World σ H)
    (f : File H) (p : Buf) (r : σ × Buf × Int × Option Error) (fuel : Nat)
    (hF : f.Follow = FollowDescriptor)
    (hrun : eofRun sys f.osFile f.SleepInterval k w.os p = some r)
    (hfuel : k < fuel) :
    ∃ out, File.Read sys fuel w f p = some out ∧
      out.n = r.2.2.1 ∧ out.err = r.2.2.2 ∧ out.err ≠ some Error.EOF ∧
      out.p = r.2.1 ∧ out.w.os = r.1 ∧ out.f.osFile = f.osFile ∧
      out.w.trace = w.trace ++ pollTrace f.osFile f.SleepInterval k ∧
      (pollTrace f.osFile f.SleepInterval k).filter Event.isSleep =
        List.replicate k (Event.Sleep f.SleepInterval) ∧
      (pollTrace f.osFile f.SleepInterval k).any
        (fun e => e.isStat || e.isOpenFile || e.isClose) = false := by
  obtain ⟨out, hout, h1, h2, h3, h4, h5, h6, h7⟩ :=
    Read_descriptor_run sys f.osFile f.SleepInterval k w f p r fuel hF rfl rfl hrun hfuel
  exact ⟨out, hout, h1, h2, h3, h4, h5, h6, h7,
    (pollTrace_calls f.osFile f.SleepInterval k).1,
    (pollTrace_calls f.osFile f.SleepInterval k).2⟩

/-- Witness of C2: the path is unlinked during the first sleep and four bytes are
appended to the file during the second; the third read delivers them. -/
theorem Read_followDescriptor_witness :
    ∃ r : SimWorld × Buf × Int × Option Error,
      OpenDescriptor simOS (logWorld [48] [[.unlink "log"], [.append 0 [116, 101, 115, 116]]])
          "log" =
        (descriptorWorld [[.unlink "log"], [.append 0 [116, 101, 115, 116]]],
          some descriptorFile, none) ∧
      (descriptorFile.Follow = FollowDescriptor ∧
        eofRun simOS descriptorFile.osFile descriptorFile.SleepInterval 2
          (descriptorWorld [[.unlink "log"], [.append 0 [116, 101, 115, 116]]]).os
          [0, 0, 0, 0] = some r ∧
        2 < 3) ∧
      r.2 = ([116, 101, 115, 116], 4, none) ∧
      ∃ out, File.Read simOS 3
          (descriptorWorld [[.unlink "log"], [.append 0 [116, 101, 115, 116]]])
          descriptorFile [0, 0, 0, 0] = some out ∧
        out.n = r.2.2.1 ∧ out.err = r.2.2.2 ∧ out.err ≠ some Error.EOF ∧
        out.p = r.2.1 ∧ out.w.os = r.1 ∧ out.f.osFile = descriptorFile.osFile ∧
        out.w.trace =
          (descriptorWorld [[.unlink "log"], [.append 0 [116, 101, 115, 116]]]).trace ++
            pollTrace descriptorFile.osFile descriptorFile.SleepInterval 2 ∧
        (pollTrace descriptorFile.osFile descriptorFile.SleepInterval 2).filter
            Event.isSleep =
          List.replicate 2 (Event.Sleep descriptorFile.SleepInterval) ∧
        (pollTrace descriptorFile.osFile descriptorFile.SleepInterval 2).any
          (fun e => e.isStat || e.isOpenFile || e.isClose) = false :=
  ⟨_, by rfl, ⟨by rfl, by rfl, by decide⟩, by rfl,
    Read_followDescriptor simOS 2
      (descriptorWorld [[.unlink "log"], [.append 0 [116, 101, 115, 116]]])
      descriptorFile [0, 0, 0, 0] _ 3 (by rfl) (by rfl) (by decide)⟩

/-! ## Rotation in name mode -/

/-- A successful `reopen`. -/
lemma reopen_ok {σ H : Type} (sys : OS σ H) (w : World σ H) (f : File H) (os2 : σ) (newf : H)
    (hopen : sys.OpenFile w.os (sys.Name f.osFile) = (os2, .ok newf)) :
    File.reopen sys w f =
      (⟨sys.Close os2 f.osFile,
          w.trace ++ [Event.OpenFile (sys.Name f.osFile)] ++ [Event.Close f.osFile]⟩,
        { f with osFile := newf, lastPos := 0 }, none) := by
  unfold File.reopen
  rw [hopen]

/-- A failed `reopen`. -/
lemma reopen_error {σ H : Type} (sys : OS σ H) (w : World σ H) (f : File H) (os2 : σ)
    (e : Error) (hopen : sys.OpenFile w.os (sys.Name f.osFile) = (os2, .error e)) :
    File.reopen sys w f =
      (⟨os2, w.trace ++ [Event.OpenFile (sys.Name f.osFile)]⟩, f, some e) := by
  unfold File.reopen
  rw [hopen]

/-- The pass of the loop that finds the file rotated and reopens it. -/
lemma ReadBody_rotation {σ H : Type} (sys : OS σ H) (w : World σ H) (f : File H) (p : Buf)
    (os1 : σ) (p1 : Buf) (n1 : Int) (statA statB : FileInfo) (A B : fileInfo)
    (os2 : σ) (newf : H)
    (hF : f.Follow = FollowName) (hnc : ¬ wrapInt64 (f.notChanged + 1) > 4)
    (hread : sys.Read w.os f.osFile p = (os1, p1, n1, some Error.EOF))
    (hA : sys.Stat (sys.Sleep os1 f.SleepInterval) (sys.Name f.osFile) = .ok statA)
    (hB : sys.FStat (sys.Sleep os1 f.SleepInterval) f.osFile = .ok statB)
    (hfa : newFileInfo statA = .ok A) (hfb : newFileInfo statB = .ok B)
    (hrot : A.Dev ≠ B.Dev ∨ A.Inode ≠ B.Inode ∨ A.Size < wrapInt64 (f.lastPos + n1))
    (hopen : sys.OpenFile (sys.Sleep os1 f.SleepInterval) (sys.Name f.osFile) =
      (os2, .ok newf)) :
    File.ReadBody sys w f p =
      (⟨sys.Close os2 f.osFile,
          w.trace ++ [Event.Read f.osFile] ++ [Event.Sleep f.SleepInterval] ++
            [Event.Stat (sys.Name f.osFile), Event.FStat f.osFile] ++
            [Event.OpenFile (sys.Name f.osFile)] ++ [Event.Close f.osFile]⟩,
        { f with osFile := newf, lastPos := 0, notChanged := 0 }, p1, .again) := by
  rw [ReadBody_check sys w f p os1 p1 n1 hF hread hnc]
  rw [IsInaccessible_of_stats sys
    ⟨sys.Sleep os1 f.SleepInterval,
      w.trace ++ [Event.Read f.osFile] ++ [Event.Sleep f.SleepInterval]⟩
    { f with lastPos := wrapInt64 (f.lastPos + n1), notChanged := 0 } statA statB A B
    hA hB hfa hfb]
  have hdec : decide (A.Dev ≠ B.Dev ∨ A.Inode ≠ B.Inode ∨
      A.Size < wrapInt64 (f.lastPos + n1)) = true :=
    decide_eq_true hrot
  simp only [hdec, ne_eq, not_true_eq_false, if_false, if_true]
  rw [reopen_ok sys _ _ os2 newf hopen]

/-- What `stillTracked` says, spelled out. -/
lemma stillTracked_elim {σ H : Type} (sys : OS σ H) (os : σ) (h : H) (pos : Int)
    (ht : stillTracked sys os h pos = true) :
    ∃ sa sb a b, sys.Stat os (sys.Name h) = .ok sa ∧ sys.FStat os h = .ok sb ∧
      sa.Sys = .stat a ∧ sb.Sys = .stat b ∧
      ¬ (toUint64 a.Dev ≠ toUint64 b.Dev ∨ a.Ino ≠ b.Ino ∨ a.Size < pos) := by
  unfold stillTracked at ht
  cases hA : sys.Stat os (sys.Name h) with
  | error e => simp [hA] at ht
  | ok sa =>
    cases hB : sys.FStat os h with
    | error e => simp [hA, hB] at ht
    | ok sb =>
      simp only [hA, hB] at ht
      cases hsa : sa.Sys with
      | nil => simp [hsa] at ht
      | foreign => simp [hsa] at ht
      | stat a =>
        cases hsb : sb.Sys with
        | nil => simp [hsa, hsb] at ht
        | foreign => simp [hsa, hsb] at ht
        | stat b =>
          simp only [hsa, hsb, decide_eq_true_eq] at ht
          refine ⟨sa, sb, a, b, rfl, rfl, hsa, hsb, ?_⟩
          rintro (h1 | h2 | h3)
          · exact h1 ht.1
          · exact h2 ht.2.1
          · exact ht.2.2 h3

/-- A pass of the loop in name mode that finds end-of-stream and the file still tracked:
it sleeps, runs the rotation check, and goes round again with the reader as it was. -/
lemma ReadBody_quiet {σ H : Type} (sys : OS σ H) (w : World σ H) (f : File H) (p : Buf)
    (os1 : σ) (p1 : Buf)
    (hF : f.Follow = FollowName) (hnc : f.notChanged = 0) (hpos : isInt64 f.lastPos)
    (hread : sys.Read w.os f.osFile p = (os1, p1, 0, some Error.EOF))
    (ht : stillTracked sys (sys.Sleep os1 f.SleepInterval) f.osFile f.lastPos = true) :
    File.ReadBody sys w f p =
      (⟨sys.Sleep os1 f.SleepInterval,
          w.trace ++ [Event.Read f.osFile] ++ [Event.Sleep f.SleepInterval] ++
            [Event.Stat (sys.Name f.osFile), Event.FStat f.osFile]⟩, f, p1, .again) := by
  obtain ⟨sa, sb, a, b, hA, hB, hsa, hsb, hno⟩ := stillTracked_elim sys _ _ _ ht
  have hnc1 : ¬ wrapInt64 (f.notChanged + 1) > 4 := by
    rw [hnc]; decide
  have hf : ({ f with lastPos := wrapInt64 (f.lastPos + 0), notChanged := 0 } : File H) = f := by
    rw [wrapInt64_add_zero hpos, ← hnc]
  rw [ReadBody_check sys w f p os1 p1 0 hF hread hnc1, hf]
  rw [IsInaccessible_of_sys sys
    ⟨sys.Sleep os1 f.SleepInterval,
      w.trace ++ [Event.Read f.osFile] ++ [Event.Sleep f.SleepInterval]⟩
    f sa sb a b hA hB hsa hsb]
  have hdec : decide (toUint64 a.Dev ≠ toUint64 b.Dev ∨ a.Ino ≠ b.Ino ∨
      a.Size < f.lastPos) = false :=
    decide_eq_false hno
  simp only [hdec, ne_eq, not_true_eq_false, if_false, Bool.false_eq_true]

/-- Name mode on a handle that stays tracked, by induction on the number of
ends-of-stream. -/
lemma Read_quiet_run {σ H : Type} (sys : OS σ H) (f : File H)
    (hF : f.Follow = FollowName) (hnc : f.notChanged = 0) (hpos : isInt64 f.lastPos) :
    ∀ (k : Nat) (w : World σ H) (p : Buf) (r : σ × Buf × Int × Option Error) (fuel : Nat),
      quietRun sys f.osFile f.SleepInterval f.lastPos k w.os p = some r → k < fuel →
      File.Read sys fuel w f p =
        some ⟨⟨r.1, w.trace ++ quietTrace (sys.Name f.osFile) f.osFile f.SleepInterval k⟩,
              { f with lastPos := wrapInt64 (f.lastPos + r.2.2.1) }, r.2.1, r.2.2.1,
              r.2.2.2⟩ := by
  intro k
  induction k with
  | zero =>
    intro w p r fuel hrun hfuel
    obtain ⟨m, rfl⟩ : ∃ m, fuel = m + 1 := ⟨fuel - 1, by omega⟩
    simp only [quietRun] at hrun
    split at hrun
    · rename_i hne
      simp only [Option.some.injEq] at hrun
      subst hrun
      exact Read_of_body_ret sys m w f p _ _ _ _ _
        (ReadBody_ret sys w f p _ _ _ _ rfl (Or.inl hne))
    · simp at hrun
  | succ k ih =>
    intro w p r fuel hrun hfuel
    obtain ⟨m, rfl⟩ : ∃ m, fuel = m + 1 := ⟨fuel - 1, by omega⟩
    simp only [quietRun] at hrun
    split at hrun
    · rename_i hq
      obtain ⟨heof, ht⟩ := hq
      have hread : sys.Read w.os f.osFile p =
          ((sys.Read w.os f.osFile p).1, (sys.Read w.os f.osFile p).2.1, 0,
            some Error.EOF) := by
        rw [← heof]
      have hbody := ReadBody_quiet sys w f p _ _ hF hnc hpos hread ht
      rw [Read_of_body_again sys m w f p _ _ _ hbody]
      rw [ih ⟨sys.Sleep (sys.Read w.os f.osFile p).1 f.SleepInterval,
            w.trace ++ [Event.Read f.osFile] ++ [Event.Sleep f.SleepInterval] ++
              [Event.Stat (sys.Name f.osFile), Event.FStat f.osFile]⟩
          (sys.Read w.os f.osFile p).2.1 r m hrun (by omega)]
      simp [quietTrace]
    · simp at hrun

/-- The answer a quiet run ends with is not end-of-stream. -/
lemma quietRun_ne_eof {σ H : Type} (sys : OS σ H) (h : H) (d : Int) (pos : Int) :
    ∀ (k : Nat) (os : σ) (p : Buf) (r : σ × Buf × Int × Option Error),
      quietRun sys h d pos k os p = some r → r.2.2.2 ≠ some Error.EOF := by
  intro k
  induction k with
  | zero =>
    intro os p r hrun
    simp only [quietRun] at hrun
    split at hrun
    · rename_i hne
      simp only [Option.some.injEq] at hrun
      subst hrun
      exact hne
    · simp at hrun
  | succ k ih =>
    intro os p r hrun
    simp only [quietRun] at hrun
    split at hrun
    · exact ih _ _ r hrun
    · simp at hrun

/-- C3. `FollowName` rotation. Take a reader as `OpenName(P)` returns it and `Read`
leaves it (`Follow` is `FollowName`, `notChanged` is 0, the owned handle is named `P`)
whose owned handle is at end-of-stream. If, after the sleep that follows, the file at
path `P` is no longer the tracked file (the device or inode in its stat differs from
that of the owned handle, or its size is smaller than `lastPos`) and `P` can be opened,
then: (1) that pass of the loop, after one sleep (within 5 poll intervals), replaces the
owned handle by the freshly opened handle on `P`, closes the old one and resets
`lastPos` to 0; (2) `Read` goes on as a `Read` of that reader on the fresh handle;
(3) whenever the fresh handle, after `k ≥ 0` empty polls during which `P` keeps naming
its file, answers a read with something other than end-of-stream, `Read` (with fuel for
`k + 2` passes) returns exactly that answer: bytes read through the fresh handle from
the start of the new file, not bytes of the old handle, with `lastPos` their count. -/
theorem Read_followName_rotation {σ H : Type} (sys : OS σ H) (w : World σ H) (f : File H)
    (p : Buf) (P : String) (os1 : σ) (p1 : Buf) (n1 : Int) (statA statB : FileInfo)
    (a b : Stat_t) (os2 : σ) (newf : H)
    (hF : f.Follow = FollowName) (hnc : f.notChanged = 0) (hname : sys.Name f.osFile = P)
    (hread : sys.Read w.os f.osFile p = (os1, p1, n1, some Error.EOF))
    (hA : sys.Stat (sys.Sleep os1 f.SleepInterval) P = .ok statA)
    (hB : sys.FStat (sys.Sleep os1 f.SleepInterval) f.osFile = .ok statB)
    (hsA : statA.Sys = .stat a) (hsB : statB.Sys = .stat b)
    (hrot : toUint64 a.Dev ≠ toUint64 b.Dev ∨ a.Ino ≠ b.Ino ∨
      a.Size < wrapInt64 (f.lastPos + n1))
    (hopen : sys.OpenFile (sys.Sleep os1 f.SleepInterval) P = (os2, .ok newf)) :
    File.ReadBody sys w f p =
      (⟨sys.Close os2 f.osFile,
          w.trace ++ [Event.Read f.osFile] ++ [Event.Sleep f.SleepInterval] ++
            [Event.Stat P, Event.FStat f.osFile] ++
            [Event.OpenFile P] ++ [Event.Close f.osFile]⟩,
        { f with osFile := newf, lastPos := 0, notChanged := 0 }, p1, .again) ∧
    (([Event.Read f.osFile] ++ [Event.Sleep f.SleepInterval] ++
        [Event.Stat P, Event.FStat f.osFile] ++
        [Event.OpenFile P] ++ [Event.Close f.osFile]).filter Event.isSleep).length ≤ 5 ∧
    (∀ fuel : Nat, File.Read sys (fuel + 1) w f p =
      File.Read sys fuel
        ⟨sys.Close os2 f.osFile,
          w.trace ++ [Event.Read f.osFile] ++ [Event.Sleep f.SleepInterval] ++
            [Event.Stat P, Event.FStat f.osFile] ++
            [Event.OpenFile P] ++ [Event.Close f.osFile]⟩
        { f with osFile := newf, lastPos := 0, notChanged := 0 } p1) ∧
    (∀ (k : Nat) (r : σ × Buf × Int × Option Error) (fuel : Nat),
      quietRun sys newf f.SleepInterval 0 k (sys.Close os2 f.osFile) p1 = some r →
      k < fuel →
      File.Read sys (fuel + 1) w f p =
        some ⟨⟨r.1,
            w.trace ++ [Event.Read f.osFile] ++ [Event.Sleep f.SleepInterval] ++
              [Event.Stat P, Event.FStat f.osFile] ++
              [Event.OpenFile P] ++ [Event.Close f.osFile] ++
              quietTrace (sys.Name newf) newf f.SleepInterval k⟩,
          { f with osFile := newf, lastPos := wrapInt64 (0 + r.2.2.1), notChanged := 0 },
          r.2.1, r.2.2.1, r.2.2.2⟩ ∧
      r.2.2.2 ≠ some Error.EOF) := by
  subst hname
  have hnc1 : ¬ wrapInt64 (f.notChanged + 1) > 4 := by
    rw [hnc]; decide
  have hbody := ReadBody_rotation sys w f p os1 p1 n1 statA statB _ _ os2 newf hF hnc1
    hread hA hB (newFileInfo_of_stat statA a hsA) (newFileInfo_of_stat statB b hsB)
    hrot hopen
  refine ⟨hbody, by simp [Event.isSleep],
    fun fuel => Read_of_body_again sys fuel w f p _ _ _ hbody, ?_⟩
  intro k r fuel hrun hfuel
  constructor
  · rw [Read_of_body_again sys fuel w f p _ _ _ hbody]
    exact Read_quiet_run sys { f with osFile := newf, lastPos := 0, notChanged := 0 }
      hF rfl (by show isInt64 0; decide) k _ p1 r fuel hrun hfuel
  · exact quietRun_ne_eof sys newf f.SleepInterval 0 k _ p1 r hrun

/-- Witness of C3: the reader `OpenName("log")` returned; during its sleep `log` is
removed and created anew, empty; during the next sleep the byte 50 is written to the
new file; `Read` returns that byte, read through the fresh handle 1. -/
theorem Read_followName_rotation_witness :
    ∃ r : SimWorld × Buf × Int × Option Error,
    OpenName simOS (logWorld [48] rotateEmpty) "log" =
      (nameWorld rotateEmpty, some nameFile, none) ∧
    (nameFile.Follow = FollowName ∧ nameFile.notChanged = 0 ∧
      simOS.Name nameFile.osFile = "log" ∧
      simOS.Read (nameWorld rotateEmpty).os nameFile.osFile [0, 0] =
        ((nameWorld rotateEmpty).os, [0, 0], 0, some Error.EOF) ∧
      simOS.Stat (simOS.Sleep (nameWorld rotateEmpty).os nameFile.SleepInterval) "log" =
        .ok ⟨.stat ⟨11, 1, 0⟩⟩ ∧
      simOS.FStat (simOS.Sleep (nameWorld rotateEmpty).os nameFile.SleepInterval)
        nameFile.osFile = .ok ⟨.stat ⟨10, 1, 1⟩⟩ ∧
      (toUint64 1 ≠ toUint64 1 ∨ (11 : Nat) ≠ 10 ∨
        (0 : Int) < wrapInt64 (nameFile.lastPos + 0)) ∧
      (simOS.OpenFile (simOS.Sleep (nameWorld rotateEmpty).os nameFile.SleepInterval)
        "log").2 = .ok ⟨1, "log"⟩ ∧
      quietRun simOS ⟨1, "log"⟩ nameFile.SleepInterval 0 1
        (simOS.Close
          (simOS.OpenFile (simOS.Sleep (nameWorld rotateEmpty).os nameFile.SleepInterval)
            "log").1 nameFile.osFile) [0, 0] = some r ∧
      1 < 2) ∧
    r.2 = ([50, 0], 1, none) ∧
    File.Read simOS (2 + 1) (nameWorld rotateEmpty) nameFile [0, 0] =
      some ⟨⟨r.1,
          (nameWorld rotateEmpty).trace ++ [Event.Read nameFile.osFile] ++
            [Event.Sleep nameFile.SleepInterval] ++
            [Event.Stat "log", Event.FStat nameFile.osFile] ++
            [Event.OpenFile "log"] ++ [Event.Close nameFile.osFile] ++
            quietTrace (simOS.Name ⟨1, "log"⟩) ⟨1, "log"⟩ nameFile.SleepInterval 1⟩,
        { nameFile with osFile := ⟨1, "log"⟩, lastPos := wrapInt64 (0 + r.2.2.1),
                        notChanged := 0 },
        r.2.1, r.2.2.1, r.2.2.2⟩ :=
  ⟨_, by rfl,
    ⟨by rfl, by rfl, by rfl, by rfl, by rfl, by rfl, Or.inr (Or.inl (by decide)), by rfl,
      by rfl, by decide⟩,
    by rfl,
    ((Read_followName_rotation simOS (nameWorld rotateEmpty) nameFile [0, 0] "log"
      (nameWorld rotateEmpty).os [0, 0] 0 ⟨.stat ⟨11, 1, 0⟩⟩ ⟨.stat ⟨10, 1, 1⟩⟩
      ⟨11, 1, 0⟩ ⟨10, 1, 1⟩ _ ⟨1, "log"⟩
      (by rfl) (by rfl) (by rfl) (by rfl) (by rfl) (by rfl) (by rfl) (by rfl)
      (Or.inr (Or.inl (by decide))) (by rfl)).2.2.2 1 _ 2 (by rfl) (by decide)).1⟩

/-! ## Position bookkeeping -/

/-- One pass of the loop, seen by the observer: the list of library calls grows; a pass
that returns `n` has closed nothing and added `n` to `lastPos`; a pass that goes round
again has either reopened (a `Close`, `lastPos` now 0) or added nothing to `lastPos`. -/
lemma ReadBody_ledger {σ H : Type} (sys : OS σ H) (heof : sys.eofIsEmpty) (w : World σ H)
    (f : File H) (p : Buf) (w1 : World σ H) (f1 : File H) (p1 : Buf) (step : Step)
    (hbody : File.ReadBody sys w f p = (w1, f1, p1, step)) :
    ∃ delta, w1.trace = w.trace ++ delta ∧
      ((∃ n err, step = .ret n err ∧ delta.any Event.isClose = false ∧
          f1.lastPos = wrapInt64 (f.lastPos + n)) ∨
       (step = .again ∧ delta.any Event.isClose = true ∧ f1.lastPos = 0) ∨
       (step = .again ∧ delta.any Event.isClose = false ∧
          f1.lastPos = wrapInt64 (f.lastPos + 0))) := by
  rcases hr : sys.Read w.os f.osFile p with ⟨os1, q1, n, err⟩
  by_cases he : err = some Error.EOF
  · subst he
    have hn : n = 0 := by
      have h := heof w.os f.osFile p
      rw [hr] at h
      exact h rfl
    subst hn
    by_cases h0 : f.Follow = FollowDisable
    · rw [ReadBody_ret sys w f p _ _ _ _ hr (Or.inr h0)] at hbody
      simp only [Prod.mk.injEq] at hbody
      obtain ⟨rfl, rfl, rfl, rfl⟩ := hbody
      exact ⟨[Event.Read f.osFile], rfl,
        Or.inl ⟨0, _, rfl, by simp [Event.isClose], rfl⟩⟩
    by_cases h1 : f.Follow = FollowDescriptor
    · rw [ReadBody_descriptor_eof sys w f p _ _ _ h1 hr] at hbody
      simp only [Prod.mk.injEq] at hbody
      obtain ⟨rfl, rfl, rfl, rfl⟩ := hbody
      exact ⟨[Event.Read f.osFile, Event.Sleep f.SleepInterval], by simp,
        Or.inr (Or.inr ⟨rfl, by simp [Event.isClose], rfl⟩)⟩
    by_cases hnc : wrapInt64 (f.notChanged + 1) > 4
    · rw [ReadBody_skip_of_ne sys w f p _ _ _ h0 h1 hr hnc] at hbody
      simp only [Prod.mk.injEq] at hbody
      obtain ⟨rfl, rfl, rfl, rfl⟩ := hbody
      exact ⟨[Event.Read f.osFile, Event.Sleep f.SleepInterval], by simp,
        Or.inr (Or.inr ⟨rfl, by simp [Event.isClose], rfl⟩)⟩
    · rw [ReadBody_check_of_ne sys w f p _ _ _ h0 h1 hr hnc] at hbody
      obtain ⟨hf, -, htr⟩ := IsInaccessible_frame sys
        ⟨sys.Sleep os1 f.SleepInterval,
          w.trace ++ [Event.Read f.osFile] ++ [Event.Sleep f.SleepInterval]⟩
        { f with lastPos := wrapInt64 (f.lastPos + 0), notChanged := 0 }
      generalize File.IsInaccessible sys
        ⟨sys.Sleep os1 f.SleepInterval,
          w.trace ++ [Event.Read f.osFile] ++ [Event.Sleep f.SleepInterval]⟩
        { f with lastPos := wrapInt64 (f.lastPos + 0), notChanged := 0 } = r
        at hbody hf htr
      obtain ⟨w3, f4, b, err2⟩ := r
      simp only at hf htr
      subst hf
      have hext : ∃ d3, w3.trace = w.trace ++ d3 ∧ d3.any Event.isClose = false := by
        rcases htr with h | h
        · exact ⟨[Event.Read f.osFile, Event.Sleep f.SleepInterval,
            Event.Stat (sys.Name f.osFile)], by simp [h], by simp [Event.isClose]⟩
        · exact ⟨[Event.Read f.osFile, Event.Sleep f.SleepInterval,
            Event.Stat (sys.Name f.osFile), Event.FStat f.osFile], by simp [h],
            by simp [Event.isClose]⟩
      obtain ⟨d3, hd3, hc3⟩ := hext
      cases err2 with
      | some e =>
        simp only [ne_eq, reduceCtorEq, not_false_eq_true, if_true, Prod.mk.injEq] at hbody
        obtain ⟨rfl, rfl, rfl, rfl⟩ := hbody
        exact ⟨d3, hd3, Or.inl ⟨0, _, rfl, hc3, rfl⟩⟩
      | none =>
        cases b with
        | false =>
          simp only [ne_eq, not_true_eq_false, if_false, Bool.false_eq_true,
            Prod.mk.injEq] at hbody
          obtain ⟨rfl, rfl, rfl, rfl⟩ := hbody
          exact ⟨d3, hd3, Or.inr (Or.inr ⟨rfl, hc3, rfl⟩)⟩
        | true =>
          simp only [ne_eq, not_true_eq_false, if_false, if_true] at hbody
          rcases hO : sys.OpenFile w3.os (sys.Name f.osFile) with ⟨os2, ro⟩
          cases ro with
          | error e =>
            rw [reopen_error sys w3
              { f with lastPos := wrapInt64 (f.lastPos + 0), notChanged := 0 } os2 e hO] at hbody
            simp only [Prod.mk.injEq] at hbody
            obtain ⟨rfl, rfl, rfl, rfl⟩ := hbody
            exact ⟨d3 ++ [Event.OpenFile (sys.Name f.osFile)], by simp [hd3],
              Or.inr (Or.inr ⟨rfl, by simp [hc3, Event.isClose], rfl⟩)⟩
          | ok newf =>
            rw [reopen_ok sys w3
              { f with lastPos := wrapInt64 (f.lastPos + 0), notChanged := 0 } os2 newf hO] at hbody
            simp only [Prod.mk.injEq] at hbody
            obtain ⟨rfl, rfl, rfl, rfl⟩ := hbody
            exact ⟨d3 ++ [Event.OpenFile (sys.Name f.osFile)] ++ [Event.Close f.osFile],
              by simp [hd3], Or.inr (Or.inl ⟨rfl, by simp [Event.isClose], rfl⟩)⟩
  · rw [ReadBody_ret sys w f p _ _ _ _ hr (Or.inl he)] at hbody
    simp only [Prod.mk.injEq] at hbody
    obtain ⟨rfl, rfl, rfl, rfl⟩ := hbody
    exact ⟨[Event.Read f.osFile], rfl, Or.inl ⟨n, _, rfl, by simp [Event.isClose], rfl⟩⟩

/-- One call of `Read`, seen by the observer: either it reopened and `lastPos` is the
count it returned, or it did not and `lastPos` grew by the count it returned. -/
lemma Read_ledger {σ H : Type} (sys : OS σ H) (heof : sys.eofIsEmpty) :
    ∀ (fuel : Nat) (w : World σ H) (f : File H) (p : Buf) (out : ReadOut σ H),
      File.Read sys fuel w f p = some out →
      ∃ delta, out.w.trace = w.trace ++ delta ∧
        ((delta.any Event.isClose = true ∧ out.f.lastPos = wrapInt64 (0 + out.n)) ∨
         (delta.any Event.isClose = false ∧
            out.f.lastPos = wrapInt64 (f.lastPos + out.n))) := by
  intro fuel
  induction fuel with
  | zero => intro w f p out h; simp [File.Read] at h
  | succ m ih =>
    intro w f p out h
    rcases hb : File.ReadBody sys w f p with ⟨w1, f1, p1, step⟩
    obtain ⟨d1, hd1, hcase⟩ := ReadBody_ledger sys heof w f p w1 f1 p1 step hb
    rcases hcase with ⟨n, err, rfl, hc, hl⟩ | ⟨rfl, hc, hl⟩ | ⟨rfl, hc, hl⟩
    · rw [Read_of_body_ret sys m w f p _ _ _ _ _ hb] at h
      simp only [Option.some.injEq] at h
      subst h
      exact ⟨d1, hd1, Or.inr ⟨hc, hl⟩⟩
    · rw [Read_of_body_again sys m w f p _ _ _ hb] at h
      obtain ⟨d2, hd2, hcase2⟩ := ih w1 f1 p1 out h
      refine ⟨d1 ++ d2, by rw [hd2, hd1, List.append_assoc], Or.inl ⟨?_, ?_⟩⟩
      · simp [hc]
      · rcases hcase2 with ⟨-, hl2⟩ | ⟨-, hl2⟩
        · exact hl2
        · rw [hl2, hl]
    · rw [Read_of_body_again sys m w f p _ _ _ hb] at h
      obtain ⟨d2, hd2, hcase2⟩ := ih w1 f1 p1 out h
      refine ⟨d1 ++ d2, by rw [hd2, hd1, List.append_assoc], ?_⟩
      rcases hcase2 with ⟨hc2, hl2⟩ | ⟨hc2, hl2⟩
      · exact Or.inl ⟨by simp [hc2], hl2⟩
      · refine Or.inr ⟨by simp [hc, hc2], ?_⟩
        rw [hl2, hl, wrapInt64_wrap_add, Int.add_zero]

/-- The observer's bookkeeping stays in step with `lastPos` along a sequence of calls. -/
lemma readCalls_ledger {σ H : Type} (sys : OS σ H) (heof : sys.eofIsEmpty) :
    ∀ (calls : List (Nat × Buf)) (w : World σ H) (f : File H) (led : Ledger)
      (rs : List (Int × Option Error)) (w2 : World σ H) (f2 : File H) (led2 : Ledger),
      f.lastPos = wrapInt64 (led.base + led.delivered) →
      readCalls sys calls w f led = some (rs, w2, f2, led2) →
      f2.lastPos = wrapInt64 (led2.base + led2.delivered) := by
  intro calls
  induction calls with
  | nil =>
    intro w f led rs w2 f2 led2 hinv h
    simp only [readCalls, Option.some.injEq, Prod.mk.injEq] at h
    obtain ⟨-, -, rfl, rfl⟩ := h
    exact hinv
  | cons c rest ih =>
    intro w f led rs w2 f2 led2 hinv h
    obtain ⟨fuel, p⟩ := c
    simp only [readCalls] at h
    cases hr : File.Read sys fuel w f p with
    | none => simp [hr] at h
    | some out =>
      simp only [hr] at h
      obtain ⟨delta, hd, hcase⟩ := Read_ledger sys heof fuel w f p out hr
      have hdrop : out.w.trace.drop w.trace.length = delta := by
        rw [hd, List.drop_left]
      rw [hdrop] at h
      cases hrec : readCalls sys rest out.w out.f (led.record delta out.n) with
      | none => simp [hrec] at h
      | some res =>
        obtain ⟨rs1, w3, f3, led3⟩ := res
        simp only [hrec, Option.some.injEq, Prod.mk.injEq] at h
        obtain ⟨-, -, rfl, rfl⟩ := h
        refine ih out.w out.f (led.record delta out.n) rs1 w3 f3 led3 ?_ hrec
        rcases hcase with ⟨hc, hl⟩ | ⟨hc, hl⟩
        · simp only [Ledger.record, hc, if_true]
          exact hl
        · simp only [Ledger.record, hc, Bool.false_eq_true, if_false]
          rw [hl, hinv, wrapInt64_wrap_add, Int.add_assoc]

/-- The small file system never hands over bytes together with end-of-stream. -/
lemma simOS_eofIsEmpty : simOS.eofIsEmpty := by
  intro os h p heof
  change (simRead os h p).2.2.2 = some Error.EOF at heof
  change (simRead os h p).2.2.1 = 0
  unfold simRead at heof ⊢
  cases hfd : os.fds[h.fd]? with
  | none => simp
  | some d =>
    simp only [hfd] at heof ⊢
    by_cases hc : d.closed = true
    · simp [hc]
    · by_cases hp : p.length = 0
      · simp [hc, hp]
      · cases hnd : os.nodes[d.node]? with
        | none => simp [hc, hp]
        | some nd =>
          simp only [hnd, hc, hp, if_false] at heof ⊢
          by_cases hk : ((nd.data.drop d.off).take p.length).length = 0
          · simp [hk]
          · simp only [Bool.false_eq_true, if_false, hk] at heof
            cases heof

/-- Counterexample to C10 as stated: `log` holds two bytes when `Open` opens it. The
reader starts with `lastPos` 2, and after a call of `Read` that returned `(0, io.EOF)`
its `lastPos` is still 2, though `Read` has returned 0 bytes since the handle was
opened. -/
theorem lastPos_is_not_bytes_returned :
    (Open simOS (logWorld [49, 50] []) "log").2 = (some drainedFile, none) ∧
    drainedFile.lastPos = 2 ∧
    (readCalls simOS [(1, [0, 0])] drainedWorld drainedFile ⟨0, 0⟩).map
        (fun r => (r.1, r.2.2.1.lastPos, r.2.2.2.delivered)) =
      some ([(0, some Error.EOF)], 2, 0) ∧
    (2 : Int) ≠ 0 :=
  ⟨by rfl, by rfl, by rfl, by decide⟩

/-- C10, amended. Position invariant: for every reader (`lastPos` an `int64`) and every
sequence of calls of `Read` on it that return, in any follow mode, including calls
that reopen or that end in an error, `lastPos` equals (in 64-bit arithmetic) the
offset the currently owned handle had when it was opened or reopened (the end-of-file
offset for a constructor, 0 for a reopen) plus the number of bytes `Read` has returned
to the caller since then; the underlying read being one that, like `(*os.File).Read`,
hands over no bytes together with end-of-stream. -/
theorem lastPos_invariant {σ H : Type} (sys : OS σ H) (heof : sys.eofIsEmpty)
    (calls : List (Nat × Buf)) (w : World σ H) (f : File H) (hpos : isInt64 f.lastPos)
    (rs : List (Int × Option Error)) (w2 : World σ H) (f2 : File H) (led2 : Ledger)
    (hrun : readCalls sys calls w f ⟨f.lastPos, 0⟩ = some (rs, w2, f2, led2)) :
    f2.lastPos = wrapInt64 (led2.base + led2.delivered) :=
  readCalls_ledger sys heof calls w f ⟨f.lastPos, 0⟩ rs w2 f2 led2
    (by simp only [Int.add_zero]; exact (wrapInt64_of_isInt64 hpos).symm) hrun

/-- Witness of C10, amended: the reader opened `log` at offset 1; the first call returns
one appended byte (`lastPos` 2); during the second call `log` is rotated, the reader
reopens it and returns the one byte of the new file: `lastPos` is 1, which is 0, the
offset at the reopen, plus the 1 byte returned since. -/
theorem lastPos_invariant_witness :
    ∃ (w2 : World SimWorld SimFile) (f2 : File SimFile),
      (simOS.eofIsEmpty ∧ isInt64 nameFile.lastPos ∧
        readCalls simOS [(1, [0, 0]), (2, [0, 0])] busyWorld nameFile
            ⟨nameFile.lastPos, 0⟩ =
          some ([(1, none), (1, none)], w2, f2, ⟨0, 1⟩)) ∧
      f2.osFile = ⟨1, "log"⟩ ∧
      f2.lastPos = wrapInt64 ((⟨0, 1⟩ : Ledger).base + (⟨0, 1⟩ : Ledger).delivered) :=
  ⟨_, _, ⟨simOS_eofIsEmpty, by decide, by rfl⟩, by rfl,
    lastPos_invariant simOS simOS_eofIsEmpty [(1, [0, 0]), (2, [0, 0])] busyWorld nameFile
      (by decide) _ _ _ _ (by rfl)⟩

/-! ## What `Read` keeps of a reader

The hypotheses of the rotation theorem on the reader (`notChanged` is 0, the follow
mode, the name of the owned handle) hold of what `OpenName` returns and are kept by
every pass of the loop, hence by every call of `Read`. -/

/-- One pass of the loop keeps the follow mode and the name of the owned handle, and
leaves a counter that was 0 at 0. -/
lemma ReadBody_keeps_shape {σ H : Type} (sys : OS σ H)
    (hname : ∀ (os : σ) (path : String) (os1 : σ) (h : H),
      sys.OpenFile os path = (os1, .ok h) → sys.Name h = path)
    (w : World σ H) (f : File H) (p : Buf) (hnc : f.notChanged = 0)
    (w1 : World σ H) (f1 : File H) (p1 : Buf) (step : Step)
    (hbody : File.ReadBody sys w f p = (w1, f1, p1, step)) :
    f1.notChanged = 0 ∧ f1.Follow = f.Follow ∧ sys.Name f1.osFile = sys.Name f.osFile := by
  rcases hr : sys.Read w.os f.osFile p with ⟨os1, q1, n, err⟩
  by_cases he : err = some Error.EOF
  · subst he
    by_cases h0 : f.Follow = FollowDisable
    · rw [ReadBody_ret sys w f p _ _ _ _ hr (Or.inr h0)] at hbody
      simp only [Prod.mk.injEq] at hbody
      obtain ⟨rfl, rfl, rfl, rfl⟩ := hbody
      exact ⟨hnc, rfl, rfl⟩
    by_cases h1 : f.Follow = FollowDescriptor
    · rw [ReadBody_descriptor_eof sys w f p _ _ _ h1 hr] at hbody
      simp only [Prod.mk.injEq] at hbody
      obtain ⟨rfl, rfl, rfl, rfl⟩ := hbody
      exact ⟨hnc, rfl, rfl⟩
    have hnc1 : ¬ wrapInt64 (f.notChanged + 1) > 4 := by
      rw [hnc]; decide
    rw [ReadBody_check_of_ne sys w f p _ _ _ h0 h1 hr hnc1] at hbody
    obtain ⟨hf, -, -⟩ := IsInaccessible_frame sys
      ⟨sys.Sleep os1 f.SleepInterval,
        w.trace ++ [Event.Read f.osFile] ++ [Event.Sleep f.SleepInterval]⟩
      { f with lastPos := wrapInt64 (f.lastPos + n), notChanged := 0 }
    generalize File.IsInaccessible sys
      ⟨sys.Sleep os1 f.SleepInterval,
        w.trace ++ [Event.Read f.osFile] ++ [Event.Sleep f.SleepInterval]⟩
      { f with lastPos := wrapInt64 (f.lastPos + n), notChanged := 0 } = r at hbody hf
    obtain ⟨w3, f4, b, err2⟩ := r
    simp only at hf
    subst hf
    cases err2 with
    | some e =>
      simp only [ne_eq, reduceCtorEq, not_false_eq_true, if_true, Prod.mk.injEq] at hbody
      obtain ⟨rfl, rfl, rfl, rfl⟩ := hbody
      exact ⟨rfl, rfl, rfl⟩
    | none =>
      cases b with
      | false =>
        simp only [ne_eq, not_true_eq_false, if_false, Bool.false_eq_true,
          Prod.mk.injEq] at hbody
        obtain ⟨rfl, rfl, rfl, rfl⟩ := hbody
        exact ⟨rfl, rfl, rfl⟩
      | true =>
        simp only [ne_eq, not_true_eq_false, if_false, if_true] at hbody
        rcases hO : sys.OpenFile w3.os (sys.Name f.osFile) with ⟨os2, ro⟩
        cases ro with
        | error e =>
          rw [reopen_error sys w3
            { f with lastPos := wrapInt64 (f.lastPos + n), notChanged := 0 } os2 e hO] at hbody
          simp only [Prod.mk.injEq] at hbody
          obtain ⟨rfl, rfl, rfl, rfl⟩ := hbody
          exact ⟨rfl, rfl, rfl⟩
        | ok newf =>
          rw [reopen_ok sys w3
            { f with lastPos := wrapInt64 (f.lastPos + n), notChanged := 0 } os2 newf hO]
            at hbody
          simp only [Prod.mk.injEq] at hbody
          obtain ⟨rfl, rfl, rfl, rfl⟩ := hbody
          exact ⟨rfl, rfl, hname _ _ _ _ hO⟩
  · rw [ReadBody_ret sys w f p _ _ _ _ hr (Or.inl he)] at hbody
    simp only [Prod.mk.injEq] at hbody
    obtain ⟨rfl, rfl, rfl, rfl⟩ := hbody
    exact ⟨hnc, rfl, rfl⟩

/-- A call of `Read` keeps the follow mode and the name of the owned handle, and leaves
a counter that was 0 at 0. -/
lemma Read_keeps_shape {σ H : Type} (sys : OS σ H)
    (hname : ∀ (os : σ) (path : String) (os1 : σ) (h : H),
      sys.OpenFile os path = (os1, .ok h) → sys.Name h = path) :
    ∀ (fuel : Nat) (w : World σ H) (f : File H) (p : Buf) (out : ReadOut σ H),
      f.notChanged = 0 → File.Read sys fuel w f p = some out →
      out.f.notChanged = 0 ∧ out.f.Follow = f.Follow ∧
        sys.Name out.f.osFile = sys.Name f.osFile := by
  intro fuel
  induction fuel with
  | zero => intro w f p out _ h; simp [File.Read] at h
  | succ m ih =>
    intro w f p out hnc h
    rcases hb : File.ReadBody sys w f p with ⟨w1, f1, p1, step⟩
    obtain ⟨k1, k2, k3⟩ := ReadBody_keeps_shape sys hname w f p hnc w1 f1 p1 step hb
    cases step with
    | ret n err =>
      rw [Read_of_body_ret sys m w f p _ _ _ _ _ hb] at h
      simp only [Option.some.injEq] at h
      subst h
      exact ⟨k1, k2, k3⟩
    | again =>
      rw [Read_of_body_again sys m w f p _ _ _ hb] at h
      obtain ⟨j1, j2, j3⟩ := ih w1 f1 p1 out k1 h
      exact ⟨j1, j2.trans k2, j3.trans k3⟩

/-! ## Delivery on the small file system -/

/-- Other processes do not touch the open descriptors of the reader. -/
lemma act_fds (s : SimWorld) (a : SimAction) : (s.act a).fds = s.fds := by
  cases a with
  | append i bytes =>
    simp only [SimWorld.act]
    split <;> rfl
  | truncate i size =>
    simp only [SimWorld.act]
    split <;> rfl
  | unlink path => rfl
  | create path nd => rfl

/-- A run of actions of other processes does not touch the open descriptors. -/
lemma foldl_act_fds (acts : List SimAction) :
    ∀ s : SimWorld, (acts.foldl SimWorld.act s).fds = s.fds := by
  induction acts with
  | nil => intro s; rfl
  | cons a rest ih =>
    intro s
    rw [List.foldl_cons, ih, act_fds]

/-- A sleep does not touch the open descriptors. -/
lemma simOS_Sleep_fds (s : SimWorld) (d : Int) : (simOS.Sleep s d).fds = s.fds := by
  show (simSleep s d).fds = s.fds
  unfold simSleep
  split
  · rfl
  · rw [foldl_act_fds]

/-- A failed open leaves the file system as it was. -/
lemma simOS_OpenFile_error (s : SimWorld) (path : String) (s2 : SimWorld) (e : Error)
    (hopen : simOS.OpenFile s path = (s2, .error e)) : s2 = s := by
  simp only [simOS, simOpenFile] at hopen
  split at hopen
  · simp only [Prod.mk.injEq] at hopen
    exact hopen.1.symm
  · split at hopen
    · simp only [Prod.mk.injEq] at hopen
      exact hopen.1.symm
    · split at hopen
      · simp at hopen
      · simp only [Prod.mk.injEq] at hopen
        exact hopen.1.symm

/-- A read through a descriptor at offset `d.off` hands over exactly the bytes of the
file that lie at that offset, as many as it reports, and moves the offset by their
count. -/
lemma simOS_Read_spec (s : SimWorld) (h : SimFile) (p : Buf) (d : SimDesc)
    (hd : s.fds[h.fd]? = some d) :
    0 ≤ (simOS.Read s h p).2.2.1 ∧
    (simOS.Read s h p).1.fds[h.fd]? =
      some { d with off := d.off + (simOS.Read s h p).2.2.1.toNat } ∧
    ∀ nd, (simOS.Read s h p).1.nodes[d.node]? = some nd →
      (simOS.Read s h p).2.1.take (simOS.Read s h p).2.2.1.toNat =
        (nd.data.drop d.off).take (simOS.Read s h p).2.2.1.toNat := by
  show 0 ≤ (simRead s h p).2.2.1 ∧
    (simRead s h p).1.fds[h.fd]? = some { d with off := d.off + (simRead s h p).2.2.1.toNat } ∧
    ∀ nd, (simRead s h p).1.nodes[d.node]? = some nd →
      (simRead s h p).2.1.take (simRead s h p).2.2.1.toNat =
        (nd.data.drop d.off).take (simRead s h p).2.2.1.toNat
  unfold simRead
  simp only [hd]
  obtain ⟨dn, doff, dcl⟩ := d
  simp only
  by_cases hc : dcl = true
  · simp [hc, hd]
  · simp only [Bool.not_eq_true] at hc
    subst hc
    by_cases hp : p.length = 0
    · simp [hp, hd]
    · cases hnd : s.nodes[dn]? with
      | none => simp [hp, hd]
      | some nd0 =>
        by_cases hk : ((nd0.data.drop doff).take p.length).length = 0
        · simp only [hp, hk, if_true, if_false, Bool.false_eq_true]
          simp [hd]
        · simp only [hp, hk, if_false, Bool.false_eq_true]
          have hlt : h.fd < s.fds.length := by
            obtain ⟨hlt, -⟩ := List.getElem?_eq_some.mp hd
            exact hlt
          refine ⟨Int.natCast_nonneg _, ?_, ?_⟩
          · rw [Int.toNat_natCast, List.getElem?_set_self hlt]
          · intro nd hnd2
            simp only [hnd, Option.some.injEq] at hnd2
            subst hnd2
            rw [Int.toNat_natCast, List.take_left, List.take_eq_take, List.length_take]
            omega

/-- Opening a path and seeking to the end puts the descriptor at the size the file has
then, which is the offset the seek reports. -/
lemma simOS_open_seek (s : SimWorld) (path : String) (s1 : SimWorld) (h : SimFile)
    (s2 : SimWorld) (n : Int)
    (hO : simOS.OpenFile s path = (s1, .ok h)) (hS : simOS.Seek s1 h = (s2, .ok n)) :
    ∃ i nd, s.dir.lookup path = some i ∧ s.nodes[i]? = some nd ∧
      n = (nd.data.length : Int) ∧
      s2.fds[h.fd]? = some ⟨i, nd.data.length, false⟩ ∧ s2.nodes = s.nodes := by
  simp only [simOS, simOpenFile] at hO
  cases hl : s.dir.lookup path with
  | none => simp [hl] at hO
  | some i =>
    cases hnd : s.nodes[i]? with
    | none => simp [hl, hnd] at hO
    | some nd =>
      simp only [hl, hnd] at hO
      by_cases hr : nd.readable = true
      · simp only [hr, if_true, Prod.mk.injEq, Except.ok.injEq] at hO
        obtain ⟨rfl, rfl⟩ := hO
        simp only [simOS, simSeek, List.getElem?_concat_length, Bool.false_eq_true,
          if_false, hnd] at hS
        by_cases hsk : nd.seekable = true
        · simp only [hsk, if_true, Prod.mk.injEq, Except.ok.injEq] at hS
          obtain ⟨rfl, rfl⟩ := hS
          refine ⟨i, nd, rfl, hnd, rfl, ?_, rfl⟩
          simp
        · simp [hsk] at hS
      · simp [hr] at hO

/-- One pass of the loop on the small file system, for a reader that does not reopen
(its mode is disabled or descriptor, or the pass closes nothing): the owned handle and
the mode stay; a pass that goes round again leaves the descriptor where it was; a pass
that returns `n` hands over the `n` bytes of the file at the offset of the descriptor
and moves the offset by `n`. -/
lemma simOS_ReadBody_delivery (w : World SimWorld SimFile) (f : File SimFile) (p : Buf)
    (d : SimDesc) (w1 : World SimWorld SimFile) (f1 : File SimFile) (p1 : Buf) (step : Step)
    (hd : w.os.fds[f.osFile.fd]? = some d)
    (hbody : File.ReadBody simOS w f p = (w1, f1, p1, step))
    (hc : (f.Follow = FollowDisable ∨ f.Follow = FollowDescriptor) ∨
      (w1.trace.drop w.trace.length).any Event.isClose = false) :
    f1.osFile = f.osFile ∧ f1.Follow = f.Follow ∧
    ((step = .again ∧ w1.os.fds[f.osFile.fd]? = some d) ∨
     (∃ n err, step = .ret n err ∧ 0 ≤ n ∧
        w1.os.fds[f.osFile.fd]? = some { d with off := d.off + n.toNat } ∧
        ∀ nd, w1.os.nodes[d.node]? = some nd →
          p1.take n.toNat = (nd.data.drop d.off).take n.toNat)) := by
  obtain ⟨hn0, hfds, hbytes⟩ := simOS_Read_spec w.os f.osFile p d hd
  rcases hr : simOS.Read w.os f.osFile p with ⟨os1, q1, n, err⟩
  rw [hr] at hn0 hfds hbytes
  simp only at hn0 hfds hbytes
  have hret : ∀ (e : Option Error),
      (f.osFile = f.osFile ∧ f.Follow = f.Follow ∧
        ((Step.ret n e = .again ∧ os1.fds[f.osFile.fd]? = some d) ∨
         (∃ n2 err2, Step.ret n e = .ret n2 err2 ∧ 0 ≤ n2 ∧
            os1.fds[f.osFile.fd]? = some { d with off := d.off + n2.toNat } ∧
            ∀ nd, os1.nodes[d.node]? = some nd →
              q1.take n2.toNat = (nd.data.drop d.off).take n2.toNat))) :=
    fun e => ⟨rfl, rfl, Or.inr ⟨n, e, rfl, hn0, hfds, hbytes⟩⟩
  by_cases he : err = some Error.EOF
  · subst he
    have hn : n = 0 := by
      have h := simOS_eofIsEmpty w.os f.osFile p
      rw [hr] at h
      exact h rfl
    subst hn
    have hfd0 : os1.fds[f.osFile.fd]? = some d := by
      rw [hfds]
      simp
    have hsl : (simOS.Sleep os1 f.SleepInterval).fds[f.osFile.fd]? = some d := by
      rw [simOS_Sleep_fds]
      exact hfd0
    by_cases h0 : f.Follow = FollowDisable
    · rw [ReadBody_ret simOS w f p _ _ _ _ hr (Or.inr h0)] at hbody
      simp only [Prod.mk.injEq] at hbody
      obtain ⟨rfl, rfl, rfl, rfl⟩ := hbody
      exact hret _
    by_cases h1 : f.Follow = FollowDescriptor
    · rw [ReadBody_descriptor_eof simOS w f p _ _ _ h1 hr] at hbody
      simp only [Prod.mk.injEq] at hbody
      obtain ⟨rfl, rfl, rfl, rfl⟩ := hbody
      exact ⟨rfl, rfl, Or.inl ⟨rfl, hsl⟩⟩
    by_cases hnc : wrapInt64 (f.notChanged + 1) > 4
    · rw [ReadBody_skip_of_ne simOS w f p _ _ _ h0 h1 hr hnc] at hbody
      simp only [Prod.mk.injEq] at hbody
      obtain ⟨rfl, rfl, rfl, rfl⟩ := hbody
      exact ⟨rfl, rfl, Or.inl ⟨rfl, hsl⟩⟩
    · rw [ReadBody_check_of_ne simOS w f p _ _ _ h0 h1 hr hnc] at hbody
      obtain ⟨hf, hos, htr⟩ := IsInaccessible_frame simOS
        ⟨simOS.Sleep os1 f.SleepInterval,
          w.trace ++ [Event.Read f.osFile] ++ [Event.Sleep f.SleepInterval]⟩
        { f with lastPos := wrapInt64 (f.lastPos + 0), notChanged := 0 }
      generalize File.IsInaccessible simOS
        ⟨simOS.Sleep os1 f.SleepInterval,
          w.trace ++ [Event.Read f.osFile] ++ [Event.Sleep f.SleepInterval]⟩
        { f with lastPos := wrapInt64 (f.lastPos + 0), notChanged := 0 } = r
        at hbody hf hos htr
      obtain ⟨w3, f4, b, err2⟩ := r
      simp only at hf hos htr
      subst hf
      have hw3 : w3.os.fds[f.osFile.fd]? = some d := by
        rw [hos]
        exact hsl
      have hext : ∃ d3, w3.trace = w.trace ++ d3 := by
        rcases htr with h | h
        · exact ⟨[Event.Read f.osFile, Event.Sleep f.SleepInterval,
            Event.Stat (simOS.Name f.osFile)], by simp [h]⟩
        · exact ⟨[Event.Read f.osFile, Event.Sleep f.SleepInterval,
            Event.Stat (simOS.Name f.osFile), Event.FStat f.osFile], by simp [h]⟩
      obtain ⟨d3, hd3⟩ := hext
      cases err2 with
      | some e =>
        simp only [ne_eq, reduceCtorEq, not_false_eq_true, if_true, Prod.mk.injEq] at hbody
        obtain ⟨rfl, rfl, rfl, rfl⟩ := hbody
        refine ⟨rfl, rfl, Or.inr ⟨0, _, rfl, le_refl _, ?_, ?_⟩⟩
        · rw [hw3]
          simp
        · intro nd _
          simp
      | none =>
        cases b with
        | false =>
          simp only [ne_eq, not_true_eq_false, if_false, Bool.false_eq_true,
            Prod.mk.injEq] at hbody
          obtain ⟨rfl, rfl, rfl, rfl⟩ := hbody
          exact ⟨rfl, rfl, Or.inl ⟨rfl, hw3⟩⟩
        | true =>
          simp only [ne_eq, not_true_eq_false, if_false, if_true] at hbody
          rcases hO : simOS.OpenFile w3.os (simOS.Name f.osFile) with ⟨os2, ro⟩
          cases ro with
          | error e =>
            rw [reopen_error simOS w3
              { f with lastPos := wrapInt64 (f.lastPos + 0), notChanged := 0 } os2 e hO]
              at hbody
            simp only [Prod.mk.injEq] at hbody
            obtain ⟨rfl, rfl, rfl, rfl⟩ := hbody
            have hos2 := simOS_OpenFile_error _ _ _ _ hO
            subst hos2
            exact ⟨rfl, rfl, Or.inl ⟨rfl, hw3⟩⟩
          | ok newf =>
            rw [reopen_ok simOS w3
              { f with lastPos := wrapInt64 (f.lastPos + 0), notChanged := 0 } os2 newf hO]
              at hbody
            simp only [Prod.mk.injEq] at hbody
            obtain ⟨rfl, rfl, rfl, rfl⟩ := hbody
            exfalso
            rcases hc with (hc | hc) | hc
            · exact h0 hc
            · exact h1 hc
            · simp [hd3, Event.isClose] at hc
  · rw [ReadBody_ret simOS w f p _ _ _ _ hr (Or.inl he)] at hbody
    simp only [Prod.mk.injEq] at hbody
    obtain ⟨rfl, rfl, rfl, rfl⟩ := hbody
    exact hret _

/-- A call of `Read` on the small file system, for a reader that does not reopen during
the call: the owned handle stays, and the call hands over exactly the `n` bytes of the
file that lie at the offset the descriptor had, moving the offset by `n`. -/
lemma simOS_Read_delivery :
    ∀ (fuel : Nat) (w : World SimWorld SimFile) (f : File SimFile) (p : Buf) (d : SimDesc)
      (out : ReadOut SimWorld SimFile),
      w.os.fds[f.osFile.fd]? = some d →
      File.Read simOS fuel w f p = some out →
      ((f.Follow = FollowDisable ∨ f.Follow = FollowDescriptor) ∨
        (out.w.trace.drop w.trace.length).any Event.isClose = false) →
      out.f.osFile = f.osFile ∧ 0 ≤ out.n ∧
      out.w.os.fds[f.osFile.fd]? = some { d with off := d.off + out.n.toNat } ∧
      ∀ nd, out.w.os.nodes[d.node]? = some nd →
        out.p.take out.n.toNat = (nd.data.drop d.off).take out.n.toNat := by
  intro fuel
  induction fuel with
  | zero => intro w f p d out _ h; simp [File.Read] at h
  | succ m ih =>
    intro w f p d out hd h hc
    rcases hb : File.ReadBody simOS w f p with ⟨w1, f1, p1, step⟩
    obtain ⟨d1, hd1, -⟩ := ReadBody_ledger simOS simOS_eofIsEmpty w f p w1 f1 p1 step hb
    cases step with
    | ret n err =>
      rw [Read_of_body_ret simOS m w f p _ _ _ _ _ hb] at h
      simp only [Option.some.injEq] at h
      subst h
      obtain ⟨k1, -, hcase⟩ := simOS_ReadBody_delivery w f p d w1 f1 p1 _ hd hb hc
      rcases hcase with ⟨hst, -⟩ | ⟨n2, err2, hst, k3, k4, k5⟩
      · cases hst
      · simp only [Step.ret.injEq] at hst
        obtain ⟨rfl, rfl⟩ := hst
        exact ⟨k1, k3, k4, k5⟩
    | again =>
      rw [Read_of_body_again simOS m w f p _ _ _ hb] at h
      obtain ⟨d2, hd2, -⟩ := Read_ledger simOS simOS_eofIsEmpty m w1 f1 p1 out h
      have hsplit : (out.w.trace.drop w.trace.length) = d1 ++ d2 := by
        rw [hd2, hd1, List.append_assoc, List.drop_left]
      have hc1 : (f.Follow = FollowDisable ∨ f.Follow = FollowDescriptor) ∨
          (w1.trace.drop w.trace.length).any Event.isClose = false := by
        rcases hc with hc | hc
        · exact Or.inl hc
        · right
          rw [hsplit, List.any_append, Bool.or_eq_false_iff] at hc
          rw [hd1, List.drop_left]
          exact hc.1
      obtain ⟨k1, k2, hcase⟩ := simOS_ReadBody_delivery w f p d w1 f1 p1 _ hd hb hc1
      rcases hcase with ⟨-, k3⟩ | ⟨n2, err2, hst, -⟩
      · have hc2 : (f1.Follow = FollowDisable ∨ f1.Follow = FollowDescriptor) ∨
            (out.w.trace.drop w1.trace.length).any Event.isClose = false := by
          rcases hc with hc | hc
          · left
            rw [k2]
            exact hc
          · right
            rw [hsplit, List.any_append, Bool.or_eq_false_iff] at hc
            rw [hd2, List.drop_left]
            exact hc.2
        rw [← k1] at k3
        obtain ⟨j1, j2, j3, j4⟩ := ih w1 f1 p1 d out k3 h hc2
        rw [k1] at j1 j3
        exact ⟨j1, j2, j3, j4⟩
      · cases hst

/-! ## Constructors -/

/-- Counterexample to C7 as stated. (1) The pipe `pipe` can be opened, yet `Open`,
`OpenDescriptor` and `OpenName` return no reader and an error, because the seek to the
end fails. (2) `log` holds the bytes 48 and 49 when `OpenName` opens it; it is
truncated to its first byte while the reader sleeps; the reader reopens it and `Read`
returns the byte 48, a byte that was in the file before the open. -/
theorem constructors_counterexample :
    ((simOS.OpenFile pipeWorld.os "pipe").2 = .ok ⟨0, "pipe"⟩ ∧
      (Open simOS pipeWorld "pipe").2 = (none, some (.other "seek pipe: illegal seek")) ∧
      (OpenDescriptor simOS pipeWorld "pipe").2 =
        (none, some (.other "seek pipe: illegal seek")) ∧
      (OpenName simOS pipeWorld "pipe").2 =
        (none, some (.other "seek pipe: illegal seek"))) ∧
    (OpenName simOS (logWorld [48, 49] [[.truncate 0 1]]) "log" =
        (truncWorld, some truncFile, none) ∧
      truncFile.lastPos = 2 ∧
      (File.Read simOS 2 truncWorld truncFile [0, 0]).map
          (fun out => (out.n, out.err, out.p, out.f.osFile, out.f.lastPos)) =
        some (1, none, [48, 0], ⟨1, "log"⟩, 1)) :=
  ⟨⟨by rfl, by rfl, by rfl, by rfl⟩, by rfl, by rfl, by rfl⟩

/-- C7, amended. Constructor postcondition. (1) For every implementation of the library
calls and every path: if the path cannot be opened, or it can be opened but the seek
to its end fails, then `Open`, `OpenDescriptor` and `OpenName` each return no reader
together with that (non-nil) error; otherwise each returns a reader owning the opened
handle, left where `Seek(0, os.SEEK_END)` put it, with `lastPos` the offset that seek
reported, `SleepInterval` one second, `notChanged` 0, and `Follow` equal to
`FollowDisable`, `FollowDescriptor` and `FollowName` respectively, with `NamePattern`
the path for `OpenName`. (2) On the small file system that offset is the size the file
has at open time, and the descriptor stands there. (3) On the small file system, a
call of `Read` by a reader that keeps its handle (one in `FollowDisable` or
`FollowDescriptor` mode always does; any reader during a call that closes nothing)
returns exactly the `n` bytes of the file that lie at the offset of the descriptor and
moves that offset forward by `n`: the offset never falls back, so no byte that lies
before the offset of the open is delivered through that handle. -/
theorem constructors_postcondition :
    (∀ {σ H : Type} (sys : OS σ H) (w : World σ H) (filename : String),
      (∀ (os1 : σ) (e : Error), sys.OpenFile w.os filename = (os1, .error e) →
        Open sys w filename = (⟨os1, w.trace ++ [Event.OpenFile filename]⟩, none, some e) ∧
        OpenDescriptor sys w filename =
          (⟨os1, w.trace ++ [Event.OpenFile filename]⟩, none, some e) ∧
        OpenName sys w filename =
          (⟨os1, w.trace ++ [Event.OpenFile filename]⟩, none, some e)) ∧
      (∀ (os1 : σ) (h : H) (os2 : σ) (e : Error),
        sys.OpenFile w.os filename = (os1, .ok h) → sys.Seek os1 h = (os2, .error e) →
        Open sys w filename =
          (⟨os2, w.trace ++ [Event.OpenFile filename] ++ [Event.Seek h]⟩, none, some e) ∧
        OpenDescriptor sys w filename =
          (⟨os2, w.trace ++ [Event.OpenFile filename] ++ [Event.Seek h]⟩, none, some e) ∧
        OpenName sys w filename =
          (⟨os2, w.trace ++ [Event.OpenFile filename] ++ [Event.Seek h]⟩, none, some e)) ∧
      (∀ (os1 : σ) (h : H) (os2 : σ) (n : Int),
        sys.OpenFile w.os filename = (os1, .ok h) → sys.Seek os1 h = (os2, .ok n) →
        Open sys w filename =
          (⟨os2, w.trace ++ [Event.OpenFile filename] ++ [Event.Seek h]⟩,
            some { osFile := h, Follow := FollowDisable, NamePattern := "",
                   SleepInterval := Second, notChanged := 0, lastPos := n }, none) ∧
        OpenDescriptor sys w filename =
          (⟨os2, w.trace ++ [Event.OpenFile filename] ++ [Event.Seek h]⟩,
            some { osFile := h, Follow := FollowDescriptor, NamePattern := "",
                   SleepInterval := Second, notChanged := 0, lastPos := n }, none) ∧
        OpenName sys w filename =
          (⟨os2, w.trace ++ [Event.OpenFile filename] ++ [Event.Seek h]⟩,
            some { osFile := h, Follow := FollowName, NamePattern := filename,
                   SleepInterval := Second, notChanged := 0, lastPos := n }, none))) ∧
    (∀ (s : SimWorld) (path : String) (s1 : SimWorld) (h : SimFile) (s2 : SimWorld)
        (n : Int),
      simOS.OpenFile s path = (s1, .ok h) → simOS.Seek s1 h = (s2, .ok n) →
      ∃ i nd, s.dir.lookup path = some i ∧ s.nodes[i]? = some nd ∧
        n = (nd.data.length : Int) ∧
        s2.fds[h.fd]? = some ⟨i, nd.data.length, false⟩ ∧ s2.nodes = s.nodes) ∧
    (∀ (fuel : Nat) (w : World SimWorld SimFile) (f : File SimFile) (p : Buf) (d : SimDesc)
        (out : ReadOut SimWorld SimFile),
      w.os.fds[f.osFile.fd]? = some d →
      File.Read simOS fuel w f p = some out →
      ((f.Follow = FollowDisable ∨ f.Follow = FollowDescriptor) ∨
        (out.w.trace.drop w.trace.length).any Event.isClose = false) →
      out.f.osFile = f.osFile ∧ 0 ≤ out.n ∧
      out.w.os.fds[f.osFile.fd]? = some { d with off := d.off + out.n.toNat } ∧
      ∀ nd, out.w.os.nodes[d.node]? = some nd →
        out.p.take out.n.toNat = (nd.data.drop d.off).take out.n.toNat) :=
  ⟨fun sys w filename => constructors_cases sys w filename, simOS_open_seek,
    simOS_Read_delivery⟩

/-- Witness of C7, amended: `nosuchfile` does not open; the pipe opens and does not
seek; `log`, holding two bytes, yields readers at offset 2, the size of the file; and
once three more bytes are appended, a `Read` into a buffer of two delivers the bytes at
offsets 2 and 3 and leaves the descriptor at offset 4. -/
theorem constructors_postcondition_witness :
    ∃ out : ReadOut SimWorld SimFile,
    ((simOS.OpenFile (logWorld [49, 50] []).os "nosuchfile" =
        ((logWorld [49, 50] []).os,
          .error (.other "open nosuchfile: no such file or directory")) ∧
      (Open simOS (logWorld [49, 50] []) "nosuchfile").2 =
        (none, some (.other "open nosuchfile: no such file or directory"))) ∧
    ((simOS.OpenFile pipeWorld.os "pipe" =
        ((simOS.OpenFile pipeWorld.os "pipe").1, .ok ⟨0, "pipe"⟩) ∧
      simOS.Seek (simOS.OpenFile pipeWorld.os "pipe").1 ⟨0, "pipe"⟩ =
        ((simOS.OpenFile pipeWorld.os "pipe").1, .error (.other "seek pipe: illegal seek"))) ∧
      (OpenName simOS pipeWorld "pipe").2 =
        (none, some (.other "seek pipe: illegal seek"))) ∧
    ((simOS.OpenFile (logWorld [49, 50] []).os "log" =
        ((simOS.OpenFile (logWorld [49, 50] []).os "log").1, .ok ⟨0, "log"⟩) ∧
      simOS.Seek (simOS.OpenFile (logWorld [49, 50] []).os "log").1 ⟨0, "log"⟩ =
        (drainedWorld.os, .ok 2)) ∧
      (OpenName simOS (logWorld [49, 50] []) "log").2 =
        (some { osFile := ⟨0, "log"⟩, Follow := FollowName, NamePattern := "log",
                SleepInterval := Second, notChanged := 0, lastPos := 2 }, none) ∧
      ∃ i nd, (logWorld [49, 50] []).os.dir.lookup "log" = some i ∧
        (logWorld [49, 50] []).os.nodes[i]? = some nd ∧
        (2 : Int) = (nd.data.length : Int) ∧
        drainedWorld.os.fds[(⟨0, "log"⟩ : SimFile).fd]? = some ⟨i, nd.data.length, false⟩ ∧
        drainedWorld.os.nodes = (logWorld [49, 50] []).os.nodes)) ∧
    ((appendedWorld.os.fds[drainedFile.osFile.fd]? = some ⟨0, 2, false⟩ ∧
      File.Read simOS 1 appendedWorld drainedFile [0, 0] = some out ∧
      ((drainedFile.Follow = FollowDisable ∨ drainedFile.Follow = FollowDescriptor) ∨
        (out.w.trace.drop appendedWorld.trace.length).any Event.isClose = false)) ∧
      (out.n, out.p) = (2, [51, 52]) ∧
      out.f.osFile = drainedFile.osFile ∧ 0 ≤ out.n ∧
      out.w.os.fds[drainedFile.osFile.fd]? =
        some { (⟨0, 2, false⟩ : SimDesc) with off := (⟨0, 2, false⟩ : SimDesc).off + out.n.toNat } ∧
      ∀ nd, out.w.os.nodes[(⟨0, 2, false⟩ : SimDesc).node]? = some nd →
        out.p.take out.n.toNat =
          (nd.data.drop (⟨0, 2, false⟩ : SimDesc).off).take out.n.toNat) :=
  ⟨_,
    ⟨⟨by rfl,
        congrArg Prod.snd ((constructors_postcondition.1 simOS (logWorld [49, 50] [])
          "nosuchfile").1 _ _ (by rfl)).1⟩,
      ⟨⟨by rfl, by rfl⟩,
        congrArg Prod.snd ((constructors_postcondition.1 simOS pipeWorld "pipe").2.1
          _ ⟨0, "pipe"⟩ _ _ (by rfl) (by rfl)).2.2⟩,
      ⟨⟨by rfl, by rfl⟩,
        congrArg Prod.snd ((constructors_postcondition.1 simOS (logWorld [49, 50] [])
          "log").2.2 _ ⟨0, "log"⟩ _ 2 (by rfl) (by rfl)).2.2,
        constructors_postcondition.2.1 (logWorld [49, 50] []).os "log" _ ⟨0, "log"⟩
          drainedWorld.os 2 (by rfl) (by rfl)⟩⟩,
    ⟨⟨by rfl, by rfl, Or.inl (Or.inl (by rfl))⟩, by rfl,
      constructors_postcondition.2.2 1 appendedWorld drainedFile [0, 0] ⟨0, 2, false⟩ _
        (by rfl) (by rfl) (Or.inl (Or.inl (by rfl)))⟩⟩

end Tail
